import Mathlib

/-!
# Verification of the f1muse lap-ingestion ETL pipeline

A shallow embedding of the lap-normalization pipeline found in
`src/etl/ingest-laps.py` (the multi-season variant, suffix `_multi`/none) and
`src/etl/ingest-laps-2025.py` (the 2025 variant, suffix `_2025`), together
with theorems settling the specification claims about stint segmentation,
clean-air classification, fail-closed transformation, the idempotent
transactional loader, the upsert conflict policy and the execution fingerprint.

Conventions of the embedding:
* pandas `NaN` / missing values are `Option.none`;
* lap times, gaps and thresholds are `Q` (the source compares and adds
  these values, it never relies on float rounding artifacts);
* the external timing provider (fastf1 session), driver-identity resolution
  and the SHA-256 primitive are parameters of the embedded functions: they
  live outside the repository;
* the relational store `laps_normalized` is a `List NormRow`; a transaction
  that rolls back returns the store unchanged.
-/

namespace F1Muse

/-! ## Executable rational numbers

Lap times, gaps and thresholds.  The source manipulates these as Python
floats, but only ever adds, subtracts and compares them; an exact fraction
type keeps those operations faithful.  (Core `Q` arithmetic is
`@[irreducible]` and cannot be evaluated by the kernel, so a small
executable fraction type is used instead: integer numerator, natural
denominator, comparisons by cross-multiplication, no normalization.) -/

/-- An exact fraction `num / den`.  All values built by the embedding have a
positive denominator. -/
structure Q where
  num : Int
  den : Nat
deriving DecidableEq, Repr, Inhabited

instance : OfNat Q n := ⟨⟨n, 1⟩⟩

instance : Add Q := ⟨fun a b => ⟨a.num * (b.den : Int) + b.num * (a.den : Int), a.den * b.den⟩⟩

instance : Sub Q := ⟨fun a b => ⟨a.num * (b.den : Int) - b.num * (a.den : Int), a.den * b.den⟩⟩

instance : LE Q := ⟨fun a b => a.num * (b.den : Int) ≤ b.num * (a.den : Int)⟩

instance : LT Q := ⟨fun a b => a.num * (b.den : Int) < b.num * (a.den : Int)⟩

instance (a b : Q) : Decidable (a ≤ b) :=
  inferInstanceAs (Decidable (a.num * (b.den : Int) ≤ b.num * (a.den : Int)))

instance (a b : Q) : Decidable (a < b) :=
  inferInstanceAs (Decidable (a.num * (b.den : Int) < b.num * (a.den : Int)))

theorem Q.not_lt {a b : Q} : ¬(a < b) ↔ b ≤ a := Int.not_lt

theorem Q.not_le {a b : Q} : ¬(a ≤ b) ↔ b < a := Int.not_le

/-- One row of the fastf1 lap DataFrame as consumed by the ETL scripts.
`pitIn`/`pitOut` model `pd.notna(row['PitInTime'])` / `pd.notna(row['PitOutTime'])`
(only presence of the markers is ever read).  `none` models a pandas `NaN`. -/
structure RawLap where
  driverNumber : Option Nat := none
  lapNumber : Nat := 0
  lapTime : Option Q := none
  pitIn : Bool := false
  pitOut : Bool := false
  compound : Option String := none
  tyreLife : Option Nat := none
  trackStatus : Option String := none
  isAccurate : Option Bool := none
  gapToLeader : Option Q := none
  position : Option Int := none
deriving DecidableEq, Repr, Inhabited

/-! ## List utilities modelling pandas primitives

`sortBy` models `DataFrame.sort_values` (a stable comparison sort),
`dedupKeys` models `Series.unique()` (first-appearance order) and
`idxFrom` models the DataFrame integer index that the scripts use to write
flags back to the original rows. -/

/-- Insert into a sorted list (stable: an element is placed before the first
element it compares `le` to). -/
def insertLe (le : α → α → Bool) (a : α) : List α → List α
  | [] => [a]
  | b :: l => if le a b then a :: b :: l else b :: insertLe le a l

/-- Stable insertion sort, modelling `DataFrame.sort_values`. -/
def sortBy (le : α → α → Bool) : List α → List α
  | [] => []
  | a :: l => insertLe le a (sortBy le l)

theorem insertLe_perm (le : α → α → Bool) (a : α) (l : List α) :
    List.Perm (insertLe le a l) (a :: l) := by
  induction l with
  | nil => simp [insertLe]
  | cons b t ih =>
      simp only [insertLe]
      by_cases h : le a b = true
      · simp [h]
      · simp only [h, if_false]
        exact (ih.cons b).trans (List.Perm.swap a b t)

theorem sortBy_perm (le : α → α → Bool) (l : List α) : List.Perm (sortBy le l) l := by
  induction l with
  | nil => simp [sortBy]
  | cons a t ih =>
      exact (insertLe_perm le a (sortBy le t)).trans (ih.cons a)

theorem sortBy_length (le : α → α → Bool) (l : List α) :
    (sortBy le l).length = l.length := (sortBy_perm le l).length_eq

theorem mem_sortBy {le : α → α → Bool} {l : List α} {a : α} :
    a ∈ sortBy le l ↔ a ∈ l := (sortBy_perm le l).mem_iff

/-- Fuel-driven helper of `dedupKeys` (structural recursion on the fuel so
that the kernel can evaluate it; the fuel is always sufficient). -/
def dedupKeysGo [DecidableEq K] : Nat → List K → List K
  | _, [] => []
  | 0, _ :: _ => []
  | fuel + 1, k :: l => k :: dedupKeysGo fuel (l.filter (fun x => x ≠ k))

/-- Keys of a list with duplicates removed, keeping first appearances;
models `Series.unique()`. -/
def dedupKeys [DecidableEq K] (l : List K) : List K := dedupKeysGo l.length l

theorem mem_dedupKeysGo [DecidableEq K] :
    ∀ (fuel : Nat) (l : List K), l.length ≤ fuel → ∀ a : K,
      (a ∈ dedupKeysGo fuel l ↔ a ∈ l) := by
  intro fuel
  induction fuel with
  | zero =>
      intro l hl a
      cases l with
      | nil => simp [dedupKeysGo]
      | cons k t => simp at hl
  | succ fuel ih =>
      intro l hl a
      cases l with
      | nil => simp [dedupKeysGo]
      | cons k t =>
          have hlen : (t.filter (fun x => x ≠ k)).length ≤ fuel :=
            le_trans (List.length_filter_le _ _) (by simpa using hl)
          simp only [dedupKeysGo, List.mem_cons, ih _ hlen, List.mem_filter, ne_eq,
            decide_eq_true_eq]
          constructor
          · rintro (rfl | ⟨h, _⟩)
            · exact Or.inl rfl
            · exact Or.inr h
          · rintro (rfl | h)
            · exact Or.inl rfl
            · by_cases hk : a = k
              · exact Or.inl hk
              · exact Or.inr ⟨h, hk⟩

theorem mem_dedupKeys [DecidableEq K] {l : List K} {a : K} :
    a ∈ dedupKeys l ↔ a ∈ l := mem_dedupKeysGo l.length l le_rfl a

/-- Attach consecutive indices starting at `k`; models the positional index of
a DataFrame. -/
def idxFrom (k : Nat) : List α → List (Nat × α)
  | [] => []
  | a :: l => (k, a) :: idxFrom (k + 1) l

theorem idxFrom_length (k : Nat) (l : List α) : (idxFrom k l).length = l.length := by
  induction l generalizing k with
  | nil => rfl
  | cons a t ih => simp [idxFrom, ih]

theorem mem_idxFrom {l : List α} {k i : Nat} {a : α} :
    (i, a) ∈ idxFrom k l → k ≤ i ∧ l[i - k]? = some a := by
  induction l generalizing k with
  | nil => intro h; cases h
  | cons b t ih =>
      intro h
      simp only [idxFrom, List.mem_cons, Prod.mk.injEq] at h
      rcases h with ⟨rfl, rfl⟩ | h
      · simp
      · obtain ⟨hk, hget⟩ := ih h
        refine ⟨Nat.le_of_succ_le hk, ?_⟩
        have hik : i - k = (i - (k + 1)) + 1 := by omega
        rw [hik]
        simpa using hget

theorem idxFrom_getElem? {l : List α} {k i : Nat} :
    (idxFrom k l)[i]? = (l[i]?).map (fun a => (k + i, a)) := by
  induction l generalizing k i with
  | nil => simp [idxFrom]
  | cons b t ih =>
      cases i with
      | zero => simp [idxFrom]
      | succ j =>
          simp only [idxFrom, List.getElem?_cons_succ, ih]
          cases t[j]? with
          | none => rfl
          | some a => simp [Nat.add_assoc, Nat.add_comm 1 j]

theorem mem_idxFrom_zero {l : List α} {i : Nat} {a : α} :
    (i, a) ∈ idxFrom 0 l → l[i]? = some a := by
  intro h
  simpa using (mem_idxFrom h).2

/-! ## Stint segmentation

Embedding of the per-driver loop body of `detect_stints_and_pit_laps`
(`ingest-laps.py`, lines 187-234) and `detect_stints`
(`ingest-laps-2025.py`, lines 151-176).  The two variants share the loop
shape and differ only in the new-stint condition, so the scan is written
once, parameterized by that condition. -/

/-- Annotations attached to one lap by the stint scan (the
`stint_id`, `stint_lap_index`, `is_in_lap_detected`, `is_out_lap_detected`,
`is_pit_lap_detected` columns). -/
structure LapAnnot where
  stint_id : Nat
  stint_lap_index : Nat
  is_in_lap : Bool
  is_out_lap : Bool
  is_pit_lap : Bool
deriving DecidableEq, Repr

/-- Loop state of the per-driver stint scan: `current_stint`, `stint_lap`,
`prev_compound` (outer `none` is Python `None`, i.e., no previous lap yet)
and `prev_had_pit_in`. -/
structure StintState where
  currentStint : Nat
  stintLap : Nat
  prevCompound : Option (Option String)
  prevHadPitIn : Bool
deriving DecidableEq, Repr

/-- `current_stint = 1; stint_lap = 1; prev_compound = None; prev_had_pit_in = False`. -/
def initStintState : StintState :=
  { currentStint := 1, stintLap := 1, prevCompound := none, prevHadPitIn := false }

/-- pandas `!=` on `Compound` cells: `NaN` compares unequal to everything,
including another `NaN`. -/
def compoundNe : Option String → Option String → Bool
  | some a, some b => a != b
  | _, _ => true

/-- New-stint condition of the multi-season variant:
`prev_compound is not None and (compound_changed or prev_had_pit_in or has_pit_out)`. -/
def boundaryMulti (st : StintState) (lap : RawLap) : Bool :=
  match st.prevCompound with
  | none => false
  | some pc => compoundNe lap.compound pc || st.prevHadPitIn || lap.pitOut

/-- New-stint condition of the 2025 variant:
`prev_compound is not None and (compound differs or PitInTime present)`. -/
def boundary2025 (st : StintState) (lap : RawLap) : Bool :=
  match st.prevCompound with
  | none => false
  | some pc => compoundNe lap.compound pc || lap.pitIn

/-- One iteration of the per-driver loop: emit this lap's annotation and
update the loop state.  (The 2025 variant does not emit the three pit flags;
carrying them is harmless there.) -/
def stintStep (boundary : StintState → RawLap → Bool) (st : StintState) (lap : RawLap) :
    LapAnnot × StintState :=
  let b := boundary st lap
  let stint := if b then st.currentStint + 1 else st.currentStint
  let idx := if b then 1 else st.stintLap
  ({ stint_id := stint, stint_lap_index := idx,
     is_in_lap := lap.pitIn, is_out_lap := lap.pitOut,
     is_pit_lap := lap.pitIn || lap.pitOut },
   { currentStint := stint, stintLap := idx + 1,
     prevCompound := some lap.compound, prevHadPitIn := lap.pitIn })

/-- The per-driver scan over laps in ascending lap-number order. -/
def stintScan (boundary : StintState → RawLap → Bool) (st : StintState) :
    List RawLap → List LapAnnot
  | [] => []
  | lap :: rest =>
      (stintStep boundary st lap).1 ::
        stintScan boundary (stintStep boundary st lap).2 rest

/-- Per-driver stint annotation of the multi-season variant. -/
def detectStintsDriverMulti (laps : List RawLap) : List LapAnnot :=
  stintScan boundaryMulti initStintState laps

/-- Per-driver stint annotation of the 2025 variant. -/
def detectStintsDriver2025 (laps : List RawLap) : List LapAnnot :=
  stintScan boundary2025 initStintState laps

theorem stintScan_length (boundary : StintState → RawLap → Bool) (laps : List RawLap) :
    ∀ st, (stintScan boundary st laps).length = laps.length := by
  induction laps with
  | nil => intro st; rfl
  | cons lap rest ih => intro st; simp [stintScan, ih]

/-- Relation between two consecutive annotations: either the stint continues
(index increments) or a new stint begins (index resets to 1). -/
def stintRel (a b : LapAnnot) : Prop :=
  (b.stint_id = a.stint_id ∧ b.stint_lap_index = a.stint_lap_index + 1) ∨
  (b.stint_id = a.stint_id + 1 ∧ b.stint_lap_index = 1)

theorem stintStep_rel (boundary : StintState → RawLap → Bool) (st : StintState)
    (lap : RawLap) (a : LapAnnot)
    (h1 : st.currentStint = a.stint_id) (h2 : st.stintLap = a.stint_lap_index + 1) :
    stintRel a (stintStep boundary st lap).1 := by
  by_cases hb : boundary st lap = true
  · right
    constructor <;> simp [stintStep, hb, h1]
  · left
    constructor <;> simp [stintStep, hb, h1, h2]

theorem stintScan_adjacent (boundary : StintState → RawLap → Bool) (laps : List RawLap) :
    ∀ (st : StintState) (i : Nat) (a b : LapAnnot),
      (stintScan boundary st laps)[i]? = some a →
      (stintScan boundary st laps)[i + 1]? = some b →
      stintRel a b := by
  induction laps with
  | nil => intro st i a b h _; simp [stintScan] at h
  | cons lap rest ih =>
      intro st i a b ha hb
      cases i with
      | zero =>
          simp only [stintScan, List.getElem?_cons_zero, Option.some.injEq] at ha
          simp only [stintScan, List.getElem?_cons_succ] at hb
          cases rest with
          | nil => simp [stintScan] at hb
          | cons lap2 rest2 =>
              simp only [stintScan, List.getElem?_cons_zero, Option.some.injEq] at hb
              subst ha
              subst hb
              exact stintStep_rel boundary _ lap2 _ rfl rfl
      | succ j =>
          simp only [stintScan, List.getElem?_cons_succ] at ha hb
          exact ih _ j a b ha hb

theorem stintScan_index_pos (boundary : StintState → RawLap → Bool) (laps : List RawLap) :
    ∀ st, 1 ≤ st.stintLap → ∀ a ∈ stintScan boundary st laps, 1 ≤ a.stint_lap_index := by
  induction laps with
  | nil => intro st _ a ha; simp [stintScan] at ha
  | cons lap rest ih =>
      intro st hst a ha
      simp only [stintScan, List.mem_cons] at ha
      rcases ha with rfl | ha
      · by_cases hb : boundary st lap = true <;> simp [stintStep, hb, hst]
      · exact ih _ (Nat.le_add_left 1 _) a ha

theorem stintScan_head (boundary : StintState → RawLap → Bool) (lap : RawLap)
    (rest : List RawLap) (hinit : boundary initStintState lap = false) :
    (stintScan boundary initStintState (lap :: rest))[0]? =
      some { stint_id := 1, stint_lap_index := 1, is_in_lap := lap.pitIn,
             is_out_lap := lap.pitOut, is_pit_lap := lap.pitIn || lap.pitOut } := by
  unfold initStintState at hinit ⊢
  simp [stintScan, stintStep, hinit]

/-! ## Clean-air classification, multi-season variant

Embedding of `detect_clean_air` (`ingest-laps.py`, lines 239-268) and its two
helpers `_detect_clean_air_from_gap` (271-295) and
`_detect_clean_air_from_cumulative` (298-348).  Every flag defaults to clean
(`True`); the helpers only clear flags.  Dirty rows are tracked by their frame
index (`idxFrom 0 rows`). -/

/-- `CLEAN_AIR_GAP_THRESHOLD = 2.0` (multi-season). -/
def CLEAN_AIR_GAP_THRESHOLD : Q := ⟨2, 1⟩

/-- `laps_df['GapToLeader'].notna().sum()`. -/
def countGap (rows : List RawLap) : Nat :=
  (rows.filter (fun r => r.gapToLeader.isSome)).length

/-- Sort key for `sort_values('Position')`; pandas places `NaN` last. -/
def posLe (a b : RawLap) : Bool :=
  match a.position, b.position with
  | some x, some y => x ≤ y
  | some _, none => true
  | none, some _ => false
  | none, none => true

/-- The rows of one lap-number group (`laps_df[laps_df['LapNumber'] == lap_num]`),
with their frame indices. -/
def lapGroup (entries : List (Nat × RawLap)) (ln : Nat) : List (Nat × RawLap) :=
  entries.filter (fun e => e.2.lapNumber == ln)

/-- `lap_data[lap_data['Position'] == ahead_position].iloc[0]` over the
Position-sorted lap group (`None` when the filter is empty). -/
def carAhead (group : List (Nat × RawLap)) (aheadPos : Int) : Option RawLap :=
  (sortBy posLe (group.map Prod.snd)).find? (fun r => r.position == some aheadPos)

/-- Dirty-air test of `_detect_clean_air_from_gap` for one row: the flag is
cleared iff the row is not in P1, carries a reported gap, the car at the
position one ahead exists with a reported gap, and the gap difference is below
the threshold.  A row with a `NaN` position is never cleared (it fails the
`== 1` test, and `Position == NaN - 1` matches nothing). -/
def gapDirty (group : List (Nat × RawLap)) (r : RawLap) (threshold : Q) : Bool :=
  match r.position with
  | none => false
  | some p =>
      if p == 1 then false
      else
        match r.gapToLeader with
        | none => false
        | some g =>
            match carAhead group (p - 1) with
            | none => false
            | some ahead =>
                match ahead.gapToLeader with
                | none => false
                | some g2 => decide (g - g2 < threshold)

/-- Frame indices cleared by `_detect_clean_air_from_gap`.  The loop visits
each distinct lap number once, and only acts when the frame has a `Position`
column. -/
def gapDirtyIdxs (entries : List (Nat × RawLap)) (hasPosCol : Bool)
    (threshold : Q) : List Nat :=
  if hasPosCol then
    (dedupKeys (entries.map (fun e => e.2.lapNumber))).flatMap (fun ln =>
      (lapGroup entries ln).filterMap (fun e =>
        if gapDirty (lapGroup entries ln) e.2 threshold then some e.1 else none))
  else []

/-- `_detect_clean_air_from_gap` as a flag vector for the frame. -/
def fromGapFlags (rows : List RawLap) (hasPosCol : Bool) (threshold : Q) :
    List Bool :=
  (List.range rows.length).map
    (fun i => !(decide (i ∈ gapDirtyIdxs (idxFrom 0 rows) hasPosCol threshold)))

/-- Sort key for `sort_values(['DriverNumber', 'LapNumber'])`. -/
def driverLapLeE (a b : Nat × RawLap) : Bool :=
  match a.2.driverNumber, b.2.driverNumber with
  | some x, some y =>
      if x = y then a.2.lapNumber ≤ b.2.lapNumber else x ≤ y
  | some _, none => true
  | none, some _ => false
  | none, none => a.2.lapNumber ≤ b.2.lapNumber

/-- Per-row cumulative race time of the multi-season variant:
`laps_df.groupby('DriverNumber')['_lap_time_sec'].cumsum()` over the frame
sorted by (DriverNumber, LapNumber).  pandas `cumsum` skips `NaN`: a row with
a missing lap time gets a `NaN` cumulative time (`none`), while later rows of
the same driver continue the running sum.  The accumulator is the per-driver
running sum (later bindings shadow earlier ones). -/
def cumEntriesMulti : List (Nat × RawLap) → List (Option Nat × Q) →
    List (Nat × RawLap × Option Q)
  | [], _ => []
  | (i, r) :: rest, acc =>
      let cur := ((acc.find? (fun p => p.1 == r.driverNumber)).map Prod.snd).getD 0
      match r.lapTime with
      | some t =>
          (i, r, some (cur + t)) ::
            cumEntriesMulti rest ((r.driverNumber, cur + t) :: acc)
      | none => (i, r, none) :: cumEntriesMulti rest acc

/-- Sort key for ranking by cumulative time (`argsort` ascending). -/
def cumValLe (a b : Nat × RawLap × Q) : Bool := a.2.2 ≤ b.2.2

/-- The ranking of `_detect_clean_air_from_cumulative` for one lap number:
the entries of that lap with a determinate cumulative time, sorted by it
(rows with `NaN` cumulative time are filtered out before ranking). -/
def cumRanking (centries : List (Nat × RawLap × Option Q)) (ln : Nat) :
    List (Nat × RawLap × Q) :=
  sortBy cumValLe ((centries.filter (fun e => e.2.1.lapNumber == ln)).filterMap
    (fun e => e.2.2.map (fun c => (e.1, e.2.1, c))))

/-- Mark the later entry of every consecutive ranked pair whose gap is below
the threshold (`for i in range(1, len(sorted_indices))`). -/
def markDirtyGaps (threshold : Q) : List (Nat × RawLap × Q) → List Nat
  | a :: b :: rest =>
      (if b.2.2 - a.2.2 < threshold then [b.1] else []) ++
        markDirtyGaps threshold (b :: rest)
  | _ => []

/-- Frame indices cleared by `_detect_clean_air_from_cumulative`. -/
def cumDirtyIdxs (entries : List (Nat × RawLap)) (threshold : Q) : List Nat :=
  let centries := cumEntriesMulti (sortBy driverLapLeE entries) []
  (dedupKeys (entries.map (fun e => e.2.lapNumber))).flatMap
    (fun ln => markDirtyGaps threshold (cumRanking centries ln))

/-- `_detect_clean_air_from_cumulative` as a flag vector for the frame. -/
def fromCumulativeFlags (rows : List RawLap) (threshold : Q) : List Bool :=
  (List.range rows.length).map
    (fun i => !(decide (i ∈ cumDirtyIdxs (idxFrom 0 rows) threshold)))

/-- Mode selector of `detect_clean_air` (multi-season):
`'GapToLeader' in laps_df.columns and laps_df['GapToLeader'].notna().sum() >
len(laps_df) * 0.5` — a single global choice for the whole frame, strict at
exactly 50 %. -/
def usesDirectGap (rows : List RawLap) (hasGapCol : Bool) : Bool :=
  hasGapCol && decide (2 * countGap rows > rows.length)

/-- `detect_clean_air` (multi-season): every flag defaults to clean (`True`);
the selected helper clears some flags. -/
def detect_clean_air_multi (rows : List RawLap) (hasGapCol hasPosCol : Bool)
    (threshold : Q) : List Bool :=
  if usesDirectGap rows hasGapCol then fromGapFlags rows hasPosCol threshold
  else fromCumulativeFlags rows threshold

/-! ## Clean-air classification, 2025 variant

Embedding of `detect_clean_air` (`ingest-laps-2025.py`, lines 181-308).
Every flag defaults to dirty (`False`); flags are set clean per
cumulative-time-sorted lap group after three exclusion checks. -/

/-- `CLEAN_AIR_GAP_THRESHOLD = 1.5` (2025). -/
def CLEAN_AIR_GAP_THRESHOLD_2025 : Q := ⟨3, 2⟩

/-- Sort key for `sort_values(['LapNumber', driver_col])`; the driver key
column is modelled by `driverNumber`. -/
def lapDriverLeE (a b : Nat × RawLap) : Bool :=
  if a.2.lapNumber = b.2.lapNumber then
    match a.2.driverNumber, b.2.driverNumber with
    | some x, some y => x ≤ y
    | some _, none => true
    | none, some _ => false
    | none, none => true
  else a.2.lapNumber ≤ b.2.lapNumber

/-- Running cumulative race time of the 2025 variant: every driver starts at
`0.0`; a missing lap time leaves the running sum unchanged and the row
receives the current (stale) value — never `NaN`. -/
def cumEntries2025 : List (Nat × RawLap) → List (Option Nat × Q) →
    List (Nat × RawLap × Q)
  | [], _ => []
  | (i, r) :: rest, acc =>
      let cur := ((acc.find? (fun p => p.1 == r.driverNumber)).map Prod.snd).getD 0
      match r.lapTime with
      | some t => (i, r, cur + t) :: cumEntries2025 rest ((r.driverNumber, cur + t) :: acc)
      | none => (i, r, cur) :: cumEntries2025 rest acc

/-- Track-status exclusion: the status string contains 4 (SC), 6 (VSC) or
7 (VSC ending); a missing (`NaN`) status is not excluded. -/
def trackStatusBad : Option String → Bool
  | some s => s.contains (Char.ofNat 52) || s.contains (Char.ofNat 54) ||
      s.contains (Char.ofNat 55)
  | none => false

/-- The three exclusion checks of the 2025 `detect_clean_air`, in source
order: pit-in/pit-out marker, SC/VSC track status, provider-invalid lap.
Any match leaves the lap at the dirty default. -/
def excluded2025 (r : RawLap) : Bool :=
  r.pitIn || r.pitOut || trackStatusBad r.trackStatus || (r.isAccurate == some false)

/-- The loop over the tail of a cumulative-time-sorted lap group: a
non-excluded entry is set clean iff its gap to the entry directly ahead in
the ranking (excluded or not) is at least the threshold. -/
def cleanGo2025 (threshold : Q) (prev : Nat × RawLap × Q) :
    List (Nat × RawLap × Q) → List Nat
  | [] => []
  | e :: rest =>
      (if excluded2025 e.2.1 then [] else
        if decide (e.2.2 - prev.2.2 ≥ threshold) then [e.1] else []) ++
        cleanGo2025 threshold e rest

/-- Frame indices set clean within one lap group: the ranking leader if not
excluded, then the tail loop. -/
def lapCleanIdxs2025 (threshold : Q) (group : List (Nat × RawLap × Q)) :
    List Nat :=
  match sortBy cumValLe group with
  | [] => []
  | e :: rest => (if excluded2025 e.2.1 then [] else [e.1]) ++ cleanGo2025 threshold e rest

/-- `detect_clean_air` (2025) as a flag vector: default dirty, set clean per
lap group. -/
def detect_clean_air_2025 (rows : List RawLap) (threshold : Q) : List Bool :=
  let centries := cumEntries2025 (sortBy lapDriverLeE (idxFrom 0 rows)) []
  let clean := (dedupKeys (centries.map (fun e => e.2.1.lapNumber))).flatMap
    (fun ln => lapCleanIdxs2025 threshold (centries.filter (fun e => e.2.1.lapNumber == ln)))
  (List.range rows.length).map (fun i => decide (i ∈ clean))

/-! ## Fail-closed transformer

Embedding of `transform_lap_data` (`ingest-laps.py` lines 351-445 and
`ingest-laps-2025.py` lines 311-400).  The fastf1 `session` object and the
driver-identity resolution built on it (identity map plus name fallback) are
external collaborators, abstracted by a `resolve` parameter. -/

/-- One persisted row of the `laps_normalized` table. -/
structure NormRow where
  season : Nat
  round : Nat
  track_id : String
  driver_id : String
  session_type : String
  lap_number : Nat
  stint_id : Nat
  stint_lap_index : Nat
  lap_time_seconds : Q
  is_valid_lap : Bool
  is_pit_lap : Bool
  is_out_lap : Bool
  is_in_lap : Bool
  clean_air_flag : Bool
  compound : Option String
  tyre_age_laps : Option Nat
deriving DecidableEq, Repr

/-- `round(lap_time_seconds, 3)`: three-decimal rounding of the duration
(the tie-breaking rule at exact half-thousandths is immaterial to every
claim; round-half-up is used here, computed on the scaled integer). -/
def round3 (q : Q) : Q :=
  ⟨Int.ediv (2 * q.num * 1000 + (q.den : Int)) (2 * (q.den : Int)), 1000⟩

/-- `is_valid_lap = not row.get('IsAccurate', True) == False`: a lap is valid
unless the provider explicitly reports it inaccurate; a missing flag defaults
to valid. -/
def isValidLap : Option Bool → Bool
  | some false => false
  | _ => true

/-- Sort key for `sort_values(['DriverNumber', 'LapNumber'])` on plain rows. -/
def driverLapLe (a b : RawLap) : Bool :=
  match a.driverNumber, b.driverNumber with
  | some x, some y => if x = y then a.lapNumber ≤ b.lapNumber else x ≤ y
  | some _, none => true
  | none, some _ => false
  | none, none => a.lapNumber ≤ b.lapNumber

/-- `detect_stints_and_pit_laps` over the whole frame: sort by
(DriverNumber, LapNumber), then write each driver's annotations through the
per-driver mask. -/
def detect_stints_and_pit_laps (rows : List RawLap) : List (RawLap × LapAnnot) :=
  let sorted := sortBy driverLapLe rows
  (dedupKeys (sorted.map RawLap.driverNumber)).flatMap (fun d =>
    let g := sorted.filter (fun r => r.driverNumber == d)
    g.zip (stintScan boundaryMulti initStintState g))

/-- `detect_stints` (2025) over the whole frame. -/
def detect_stints_2025 (rows : List RawLap) : List (RawLap × LapAnnot) :=
  let sorted := sortBy driverLapLe rows
  (dedupKeys (sorted.map RawLap.driverNumber)).flatMap (fun d =>
    let g := sorted.filter (fun r => r.driverNumber == d)
    g.zip (stintScan boundary2025 initStintState g))

/-- The record-construction loop shared by both transforms: one record per
remaining row; a row whose lap time cannot be read is counted in the second
component (unreachable after the critical-field filter, kept faithfully to
the `try/except` of the source). -/
def buildRecords (mk : RawLap → Q → LapAnnot → Bool → NormRow) :
    List ((RawLap × LapAnnot) × Bool) → List NormRow × Nat
  | [] => ([], 0)
  | ((r, a), flag) :: rest =>
      let rec_rest := buildRecords mk rest
      match r.lapTime with
      | some t => (mk r t a flag :: rec_rest.1, rec_rest.2)
      | none => (rec_rest.1, rec_rest.2 + 1)

/-- `transform_lap_data` (multi-season).  Returns
(records, laps filtered before analysis, laps skipped in the record loop). -/
def transform_lap_data (rows : List RawLap) (season roundNumber : Nat)
    (track_id : String) (resolve : Option Nat → String)
    (hasGapCol hasPosCol : Bool) : List NormRow × Nat × Nat :=
  let filtered := rows.filter (fun r => r.lapTime.isSome && r.driverNumber.isSome)
  let skippedBefore := rows.length - filtered.length
  let annotated := detect_stints_and_pit_laps filtered
  let flags := detect_clean_air_multi (annotated.map Prod.fst) hasGapCol hasPosCol
    CLEAN_AIR_GAP_THRESHOLD
  let built := buildRecords (fun r t a flag =>
    { season := season, round := roundNumber, track_id := track_id,
      driver_id := resolve r.driverNumber, session_type := "R",
      lap_number := r.lapNumber, stint_id := a.stint_id,
      stint_lap_index := a.stint_lap_index, lap_time_seconds := round3 t,
      is_valid_lap := isValidLap r.isAccurate,
      is_pit_lap := a.is_pit_lap, is_out_lap := a.is_out_lap,
      is_in_lap := a.is_in_lap, clean_air_flag := flag,
      compound := r.compound, tyre_age_laps := r.tyreLife })
    (annotated.zip flags)
  (built.1, skippedBefore, built.2)

/-- `transform_lap_data` (2025).  The pit flags are recomputed from the
markers on the row (`is_pit_lap = PitInTime or PitOutTime present`). -/
def transform_lap_data_2025 (rows : List RawLap) (season roundNumber : Nat)
    (track_id : String) (resolve : Option Nat → String) : List NormRow × Nat × Nat :=
  let filtered := rows.filter (fun r => r.lapTime.isSome && r.driverNumber.isSome)
  let skippedBefore := rows.length - filtered.length
  let annotated := detect_stints_2025 filtered
  let flags := detect_clean_air_2025 (annotated.map Prod.fst) CLEAN_AIR_GAP_THRESHOLD_2025
  let built := buildRecords (fun r t a flag =>
    { season := season, round := roundNumber, track_id := track_id,
      driver_id := resolve r.driverNumber, session_type := "R",
      lap_number := r.lapNumber, stint_id := a.stint_id,
      stint_lap_index := a.stint_lap_index, lap_time_seconds := round3 t,
      is_valid_lap := isValidLap r.isAccurate,
      is_pit_lap := r.pitIn || r.pitOut, is_out_lap := r.pitOut,
      is_in_lap := r.pitIn, clean_air_flag := flag,
      compound := r.compound, tyre_age_laps := r.tyreLife })
    (annotated.zip flags)
  (built.1, skippedBefore, built.2)

/-! ## Transactional loader

Embedding of `check_race_already_loaded`, the `ON CONFLICT` upsert and
`load_race_data` (both variants; `ingest-laps.py` lines 145-155 and 448-568,
`ingest-laps-2025.py` lines 123-133 and 403-523).  The store is a list of
rows; `BEGIN`/`COMMIT`/`ROLLBACK` are modelled by returning the updated store
on success and the untouched store on failure. -/

/-- Outcome status of one race load. -/
inductive LoadStatus
  | success
  | skipped
  | failed
deriving DecidableEq, Repr

/-- The dictionary returned by `load_race_data`, restricted to the fields the
caller reads. -/
structure LoadResult where
  status : LoadStatus
  laps_inserted : Nat
deriving DecidableEq, Repr

/-- `SELECT COUNT(*) FROM laps_normalized WHERE season = %s AND round = %s`. -/
def countKey (db : List NormRow) (season roundNumber : Nat) : Nat :=
  (db.filter (fun row => row.season == season && row.round == roundNumber)).length

/-- `check_race_already_loaded`: non-zero row count for the (season, round)
key. -/
def check_race_already_loaded (db : List NormRow) (season roundNumber : Nat) : Bool :=
  decide (countKey db season roundNumber > 0)

/-- The conflict key of the bulk upsert:
(season, round, track_id, driver_id, lap_number). -/
def sameConflictKey (a b : NormRow) : Bool :=
  a.season == b.season && a.round == b.round && a.track_id == b.track_id &&
    a.driver_id == b.driver_id && a.lap_number == b.lap_number

/-- The `ON CONFLICT ... DO UPDATE SET` clause: the six re-derived fields are
overwritten from the excluded (incoming) row; every other stored field —
notably `lap_time_seconds` and `compound` — keeps its stored value. -/
def resolveConflict (old incoming : NormRow) : NormRow :=
  { old with
    session_type := incoming.session_type,
    stint_id := incoming.stint_id,
    stint_lap_index := incoming.stint_lap_index,
    is_pit_lap := incoming.is_pit_lap,
    is_out_lap := incoming.is_out_lap,
    is_in_lap := incoming.is_in_lap }

/-- Insert one record, resolving a conflict on the unique key if present
(the unique index guarantees at most one conflicting stored row). -/
def upsertOne (db : List NormRow) (rec : NormRow) : List NormRow :=
  if db.any (fun old => sameConflictKey old rec) then
    db.map (fun old => if sameConflictKey old rec then resolveConflict old rec else old)
  else db ++ [rec]

/-- `execute_values` over the batch inside the transaction, with fault
injection: processing row number `k` (0-based) raises when `failAt = some k`
(modelling a constraint violation or connectivity loss mid-batch). -/
def bulkUpsertGo (failAt : Option Nat) :
    List NormRow → List NormRow → Nat → Except Unit (List NormRow)
  | db, [], _ => .ok db
  | db, rec :: rest, k =>
      if failAt == some k then .error ()
      else bulkUpsertGo failAt (upsertOne db rec) rest (k + 1)

/-- The whole batch insert of one race. -/
def bulkUpsert (db : List NormRow) (recs : List NormRow) (failAt : Option Nat) :
    Except Unit (List NormRow) :=
  bulkUpsertGo failAt db recs 0

/-- `load_race_data` (multi-season), after the external fastf1 fetch
succeeded (`laps` is the fetched lap frame, `track_id` the event name slug). -/
def load_race_data (db : List NormRow) (season roundNumber : Nat)
    (laps : List RawLap) (track_id : String) (resolve : Option Nat → String)
    (hasGapCol hasPosCol : Bool) (failAt : Option Nat) :
    List NormRow × LoadResult :=
  if check_race_already_loaded db season roundNumber then
    (db, { status := .skipped, laps_inserted := 0 })
  else if laps.isEmpty then
    (db, { status := .failed, laps_inserted := 0 })
  else
    let recs := (transform_lap_data laps season roundNumber track_id resolve
      hasGapCol hasPosCol).1
    if recs.isEmpty then (db, { status := .failed, laps_inserted := 0 })
    else
      match bulkUpsert db recs failAt with
      | .ok db2 => (db2, { status := .success, laps_inserted := recs.length })
      | .error _ => (db, { status := .failed, laps_inserted := 0 })

/-- `load_race_data` (2025). -/
def load_race_data_2025 (db : List NormRow) (season roundNumber : Nat)
    (laps : List RawLap) (track_id : String) (resolve : Option Nat → String)
    (failAt : Option Nat) : List NormRow × LoadResult :=
  if check_race_already_loaded db season roundNumber then
    (db, { status := .skipped, laps_inserted := 0 })
  else if laps.isEmpty then
    (db, { status := .failed, laps_inserted := 0 })
  else
    let recs := (transform_lap_data_2025 laps season roundNumber track_id resolve).1
    if recs.isEmpty then (db, { status := .failed, laps_inserted := 0 })
    else
      match bulkUpsert db recs failAt with
      | .ok db2 => (db2, { status := .success, laps_inserted := recs.length })
      | .error _ => (db, { status := .failed, laps_inserted := 0 })

/-! ## Audit fingerprint

Embedding of `compute_execution_hash` (`ingest-laps.py` lines 72-75) and the
round argument computed in `main` (lines 681-687).  The SHA-256 primitive
(`hashlib`) is external and abstracted by a parameter. -/

/-- Decimal digit character. -/
def digitChar (d : Nat) : Char := Char.ofNat (48 + d)

/-- Fuel-driven helper of `natStrChars` (structural recursion on the fuel so
that the kernel can evaluate it; fuel `n` is always sufficient). -/
def natStrCharsGo : Nat → Nat → List Char
  | 0, n => [digitChar n]
  | fuel + 1, n =>
      if n < 10 then [digitChar n]
      else natStrCharsGo fuel (n / 10) ++ [digitChar (n % 10)]

/-- Decimal rendering of a nonnegative integer, as Python `str` inside an
f-string produces it. -/
def natStrChars (n : Nat) : List Char := natStrCharsGo n n

/-- Decimal string of a natural number. -/
def natStr (n : Nat) : String := String.mk (natStrChars n)

/-- The hashed pre-image of `compute_execution_hash`:
`f"{season}:{round_number}:{source_version}"`. -/
def execution_data (season roundNumber : Nat) (source_version : String) : String :=
  natStr season ++ ":" ++ natStr roundNumber ++ ":" ++ source_version

/-- `compute_execution_hash`, with SHA-256 as an external parameter. -/
def compute_execution_hash (sha256 : String → String) (season roundNumber : Nat)
    (source_version : String) : String :=
  sha256 (execution_data season roundNumber source_version)

/-- Modelled from the spec: the claimed fingerprint pre-image
`{subject-kind}:{season}:{round-or-0}:{source-version-string}` (the source's
`compute_execution_hash` in `ingest-laps.py` has no subject-kind field; this
definition follows the spec's words for comparison). -/
def spec_fingerprint_data (kind : String) (season roundNumber : Nat)
    (source_version : String) : String :=
  kind ++ ":" ++ natStr season ++ ":" ++ natStr roundNumber ++ ":" ++ source_version

/-- `rounds_to_process[0] if len(rounds_to_process) == 1 else 0` (`main`). -/
def auditRound : List Nat → Nat
  | [r] => r
  | _ => 0

/-! ## Example inputs used by witnesses and counterexamples -/

/-- One driver, three laps; lap 2 carries a pit-out marker and a compound
change (the end-to-end scenario of the spec, §8). -/
def exStintLaps : List RawLap :=
  [{ driverNumber := some 1, lapNumber := 1, lapTime := some 90, compound := some "SOFT" },
   { driverNumber := some 1, lapNumber := 2, lapTime := some 95, pitOut := true,
     compound := some "HARD" },
   { driverNumber := some 1, lapNumber := 3, lapTime := some 91, compound := some "HARD" }]

/-! ## Claim C4: stint monotonicity -/

theorem getElem?_mem_of_stintScan {boundary : StintState → RawLap → Bool}
    {st : StintState} {laps : List RawLap} {i : Nat} {a : LapAnnot}
    (h : (stintScan boundary st laps)[i]? = some a) :
    a ∈ stintScan boundary st laps := List.getElem?_mem h

/-- The three claimed properties for a scan from the initial state, for any
new-stint condition that is inactive on the first lap. -/
theorem stintScan_c4_props (boundary : StintState → RawLap → Bool)
    (hinit : ∀ lap, boundary initStintState lap = false) (laps : List RawLap) :
    (∀ a, (stintScan boundary initStintState laps)[0]? = some a →
        a.stint_id = 1 ∧ a.stint_lap_index = 1) ∧
    (∀ i a b, (stintScan boundary initStintState laps)[i]? = some a →
        (stintScan boundary initStintState laps)[i + 1]? = some b →
        a.stint_id ≤ b.stint_id ∧
          (b.stint_id ≠ a.stint_id → b.stint_id = a.stint_id + 1 ∧ b.stint_lap_index = 1) ∧
          (b.stint_id = a.stint_id → b.stint_lap_index = a.stint_lap_index + 1) ∧
          (b.stint_lap_index = 1 → b.stint_id = a.stint_id + 1)) := by
  constructor
  · intro a ha
    cases laps with
    | nil => simp [stintScan] at ha
    | cons lap rest =>
        rw [stintScan_head boundary lap rest (hinit lap)] at ha
        cases ha
        exact ⟨rfl, rfl⟩
  · intro i a b ha hb
    have hrel := stintScan_adjacent boundary laps initStintState i a b ha hb
    have hpos : 1 ≤ a.stint_lap_index :=
      stintScan_index_pos boundary laps initStintState (by simp [initStintState]) a
        (getElem?_mem_of_stintScan ha)
    rcases hrel with ⟨hs, hi⟩ | ⟨hs, hi⟩
    · refine ⟨le_of_eq hs.symm, fun hne => absurd hs hne, fun _ => hi, fun h1 => ?_⟩
      rw [hi] at h1
      omega
    · exact ⟨by omega, fun _ => ⟨hs, hi⟩, fun heq => by omega, fun _ => hs⟩

/-- C4: For every driver within one race, over laps processed in ascending
lap-number order, the assigned stint id is non-decreasing, the driver's first
lap is assigned stint 1 with stint-local index 1 regardless of compound, and
the stint-local index resets to 1 exactly at each stint boundary and
otherwise increments by one — for both the multi-season scan
(`detect_stints_and_pit_laps`) and the 2025 scan (`detect_stints`). -/
theorem c4_stint_monotonicity (laps : List RawLap) :
    ((∀ a, (detectStintsDriverMulti laps)[0]? = some a →
        a.stint_id = 1 ∧ a.stint_lap_index = 1) ∧
      (∀ i a b, (detectStintsDriverMulti laps)[i]? = some a →
        (detectStintsDriverMulti laps)[i + 1]? = some b →
        a.stint_id ≤ b.stint_id ∧
          (b.stint_id ≠ a.stint_id → b.stint_id = a.stint_id + 1 ∧ b.stint_lap_index = 1) ∧
          (b.stint_id = a.stint_id → b.stint_lap_index = a.stint_lap_index + 1) ∧
          (b.stint_lap_index = 1 → b.stint_id = a.stint_id + 1))) ∧
    ((∀ a, (detectStintsDriver2025 laps)[0]? = some a →
        a.stint_id = 1 ∧ a.stint_lap_index = 1) ∧
      (∀ i a b, (detectStintsDriver2025 laps)[i]? = some a →
        (detectStintsDriver2025 laps)[i + 1]? = some b →
        a.stint_id ≤ b.stint_id ∧
          (b.stint_id ≠ a.stint_id → b.stint_id = a.stint_id + 1 ∧ b.stint_lap_index = 1) ∧
          (b.stint_id = a.stint_id → b.stint_lap_index = a.stint_lap_index + 1) ∧
          (b.stint_lap_index = 1 → b.stint_id = a.stint_id + 1))) :=
  ⟨stintScan_c4_props boundaryMulti (fun _ => rfl) laps,
   stintScan_c4_props boundary2025 (fun _ => rfl) laps⟩

/-- Witness for C4 at the spec's end-to-end scenario: driver's three laps
give stint ids [1, 2, 2] and stint-local indices [1, 1, 2]; the pair at
(lap 2, lap 3) instantiates the adjacency facts. -/
theorem c4_stint_monotonicity_witness :
    (detectStintsDriverMulti exStintLaps)[1]? =
        some { stint_id := 2, stint_lap_index := 1, is_in_lap := false,
               is_out_lap := true, is_pit_lap := true } ∧
    (detectStintsDriverMulti exStintLaps)[2]? =
        some { stint_id := 2, stint_lap_index := 2, is_in_lap := false,
               is_out_lap := false, is_pit_lap := false } ∧
    (2 ≤ 2 ∧
      ((2 : Nat) ≠ 2 → (2 : Nat) = 2 + 1 ∧ (2 : Nat) = 1) ∧
      ((2 : Nat) = 2 → (2 : Nat) = 1 + 1) ∧
      ((2 : Nat) = 1 → (2 : Nat) = 2 + 1)) :=
  ⟨by decide, by decide,
    (c4_stint_monotonicity exStintLaps).1.2 1
      { stint_id := 2, stint_lap_index := 1, is_in_lap := false,
        is_out_lap := true, is_pit_lap := true }
      { stint_id := 2, stint_lap_index := 2, is_in_lap := false,
        is_out_lap := false, is_pit_lap := false }
      (by decide) (by decide)⟩

/-! ## Soundness lemmas for the 2025 clean-air classifier -/

theorem cumEntries2025_mem :
    ∀ (l : List (Nat × RawLap)) (acc : List (Option Nat × Q)) {i : Nat}
      {r : RawLap} {c : Q}, (i, r, c) ∈ cumEntries2025 l acc → (i, r) ∈ l := by
  intro l
  induction l with
  | nil => intro acc i r c h; simp [cumEntries2025] at h
  | cons e rest ih =>
      intro acc i r c h
      obtain ⟨j, s⟩ := e
      simp only [cumEntries2025] at h
      split at h
      · rcases List.mem_cons.mp h with heq | h
        · cases heq; exact List.mem_cons_self _ _
        · exact List.mem_cons_of_mem _ (ih _ h)
      · rcases List.mem_cons.mp h with heq | h
        · cases heq; exact List.mem_cons_self _ _
        · exact List.mem_cons_of_mem _ (ih _ h)

theorem cleanGo2025_mem (thr : Q) (l : List (Nat × RawLap × Q)) :
    ∀ (prev : Nat × RawLap × Q) (i : Nat), i ∈ cleanGo2025 thr prev l →
      ∃ e ∈ l, e.1 = i ∧ excluded2025 e.2.1 = false := by
  induction l with
  | nil => intro prev i h; simp [cleanGo2025] at h
  | cons e rest ih =>
      intro prev i h
      simp only [cleanGo2025, List.mem_append] at h
      rcases h with h | h
      · by_cases hex : excluded2025 e.2.1 = true
        · simp [hex] at h
        · rw [if_neg hex] at h
          split at h
          · simp only [List.mem_singleton] at h
            exact ⟨e, List.mem_cons_self _ _, h.symm, Bool.not_eq_true _ |>.mp hex⟩
          · simp at h
      · obtain ⟨e2, he2, hi, hex⟩ := ih e i h
        exact ⟨e2, List.mem_cons_of_mem _ he2, hi, hex⟩

theorem lapCleanIdxs2025_mem (thr : Q) (group : List (Nat × RawLap × Q)) (i : Nat)
    (h : i ∈ lapCleanIdxs2025 thr group) :
    ∃ e ∈ group, e.1 = i ∧ excluded2025 e.2.1 = false := by
  unfold lapCleanIdxs2025 at h
  split at h
  · simp at h
  · rename_i e rest hs
    simp only [List.mem_append] at h
    have hmem : ∀ x ∈ e :: rest, x ∈ group := by
      intro x hx
      have : x ∈ sortBy cumValLe group := hs ▸ hx
      exact mem_sortBy.mp this
    rcases h with h | h
    · by_cases hex : excluded2025 e.2.1 = true
      · simp [hex] at h
      · rw [if_neg hex] at h
        simp only [List.mem_singleton] at h
        exact ⟨e, hmem e (List.mem_cons_self _ _), h.symm, Bool.not_eq_true _ |>.mp hex⟩
    · obtain ⟨e2, he2, hi, hex⟩ := cleanGo2025_mem thr rest e i h
      exact ⟨e2, hmem e2 (List.mem_cons_of_mem _ he2), hi, hex⟩

/-- A lap flagged clean by the 2025 classifier passed every exclusion check
(pit markers, SC/VSC status, provider validity). -/
theorem detect_clean_air_2025_true_not_excluded (rows : List RawLap) (thr : Q)
    (i : Nat) (r : RawLap) (hr : rows[i]? = some r)
    (hf : (detect_clean_air_2025 rows thr)[i]? = some true) :
    excluded2025 r = false := by
  unfold detect_clean_air_2025 at hf
  rw [List.getElem?_map] at hf
  have hlen : i < rows.length := by
    have := List.getElem?_eq_some.mp hr
    simpa using this.fst
  rw [List.getElem?_range (by simpa using hlen)] at hf
  simp only [Option.map_some', Option.some.injEq, decide_eq_true_eq] at hf
  obtain ⟨ln, _, hidx⟩ := List.mem_flatMap.mp hf
  obtain ⟨e, hegrp, hei, hex⟩ := lapCleanIdxs2025_mem _ _ i hidx
  have hecent : e ∈ cumEntries2025 (sortBy lapDriverLeE (idxFrom 0 rows)) [] :=
    (List.mem_filter.mp hegrp).1
  obtain ⟨j, s, c⟩ := e
  cases hei
  have hsrt : (j, s) ∈ sortBy lapDriverLeE (idxFrom 0 rows) :=
    cumEntries2025_mem _ _ hecent
  have hrow : rows[j]? = some s := mem_idxFrom_zero (mem_sortBy.mp hsrt)
  have hr2 : rows[j]? = some r := hr
  rw [hrow] at hr2
  rw [← Option.some.inj hr2]
  exact hex

/-- Every record emitted by the record loop comes from one of its input
triples, with the lap time successfully read. -/
theorem buildRecords_mem (mk : RawLap → Q → LapAnnot → Bool → NormRow)
    (pairs : List ((RawLap × LapAnnot) × Bool)) :
    ∀ rec ∈ (buildRecords mk pairs).1, ∃ p ∈ pairs, ∃ t,
      p.1.1.lapTime = some t ∧ rec = mk p.1.1 t p.1.2 p.2 := by
  induction pairs with
  | nil => intro rec h; simp [buildRecords] at h
  | cons p rest ih =>
      intro rec hrec
      obtain ⟨⟨r, a⟩, flag⟩ := p
      simp only [buildRecords] at hrec
      split at hrec
      · rename_i t hlt
        rcases List.mem_cons.mp hrec with rfl | hrec
        · exact ⟨((r, a), flag), List.mem_cons_self _ _, t, hlt, rfl⟩
        · obtain ⟨p2, hp2, t2, h1, h2⟩ := ih rec hrec
          exact ⟨p2, List.mem_cons_of_mem _ hp2, t2, h1, h2⟩
      · obtain ⟨p2, hp2, t2, h1, h2⟩ := ih rec hrec
        exact ⟨p2, List.mem_cons_of_mem _ hp2, t2, h1, h2⟩

/-- A member of a zip comes from matching positions of the two lists. -/
theorem mem_zip_getElem {l1 : List α} {l2 : List β} {x : α × β} (h : x ∈ l1.zip l2) :
    ∃ i : Nat, l1[i]? = some x.1 ∧ l2[i]? = some x.2 := by
  induction l1 generalizing l2 with
  | nil => simp at h
  | cons a t ih =>
      cases l2 with
      | nil => simp at h
      | cons b t2 =>
          rw [List.zip_cons_cons] at h
          rcases List.mem_cons.mp h with rfl | h
          · exact ⟨0, by simp, by simp⟩
          · obtain ⟨i, h1, h2⟩ := ih h
            refine ⟨i + 1, ?_, ?_⟩
            · rw [List.getElem?_cons_succ]
              exact h1
            · rw [List.getElem?_cons_succ]
              exact h2

/-! ## Claim C1: pit laps and clean air -/

/-- A single lap carrying a pit-in marker (input of the C1 counterexample). -/
def exPitLap : List RawLap :=
  [{ driverNumber := some 1, lapNumber := 1, lapTime := some 90, pitIn := true,
     compound := some "SOFT", trackStatus := some "1" }]

/-- C1 counterexample: the multi-season transform
(`ingest-laps.py`), run on a single lap that carries a pit-in marker,
produces a record with `is_pit_lap = true` and `clean_air_flag = true`:
`detect_clean_air` there defaults every lap to clean and applies no pit
exclusion, so the claimed exclusivity fails for the multi-season variant. -/
theorem c1_counterexample :
    ((transform_lap_data exPitLap 2024 1 "bahrain" (fun _ => "drv") true true).1.all
      (fun rec => !(rec.is_pit_lap && rec.clean_air_flag))) = false := by decide

/-- C1 amended: in the 2025 variant (`ingest-laps-2025.py`), every record
produced by the transform stage with `is_pit_lap = true` has
`clean_air_flag = false` (the 2025 classifier checks the pit markers first
and leaves such laps at the dirty default).  The multi-season variant does
not satisfy the claim. -/
theorem c1_pit_implies_dirty_2025 (rows : List RawLap) (season roundN : Nat)
    (track : String) (resolve : Option Nat → String) :
    ∀ rec ∈ (transform_lap_data_2025 rows season roundN track resolve).1,
      rec.is_pit_lap = true → rec.clean_air_flag = false := by
  intro rec hrec hpit
  simp only [transform_lap_data_2025] at hrec
  obtain ⟨p, hp, t, hlt, hrec_eq⟩ := buildRecords_mem _ _ rec hrec
  obtain ⟨⟨r, a⟩, flag⟩ := p
  subst hrec_eq
  have hpit2 : (r.pitIn || r.pitOut) = true := hpit
  obtain ⟨i, hann, hflag⟩ := mem_zip_getElem hp
  by_contra hclean
  have hflag_true : flag = true := by
    simpa using Bool.not_eq_false _ |>.mp (fun hff => hclean (by simpa using hff))
  subst hflag_true
  have hrow :
      (List.map Prod.fst (detect_stints_2025 (List.filter
        (fun r => r.lapTime.isSome && r.driverNumber.isSome) rows)))[i]? = some r := by
    rw [List.getElem?_map, hann]
    rfl
  have hexc := detect_clean_air_2025_true_not_excluded _ _ i r hrow hflag
  simp only [excluded2025, Bool.or_eq_false_iff] at hexc
  rcases Bool.or_eq_true_iff.mp hpit2 with h | h
  · rw [h] at hexc
    simp at hexc
  · rw [h] at hexc
    simp at hexc

/-- Input of the C1 witness: one pit-in lap and one ordinary lap. -/
def exPit2025 : List RawLap :=
  [{ driverNumber := some 1, lapNumber := 1, lapTime := some 90, pitIn := true },
   { driverNumber := some 2, lapNumber := 1, lapTime := some 80 }]

/-- The record the 2025 transform produces for the pit-in lap of `exPit2025`. -/
def exPitRecord : NormRow :=
  { season := 2025, round := 1, track_id := "t", driver_id := "drv",
    session_type := "R", lap_number := 1, stint_id := 1, stint_lap_index := 1,
    lap_time_seconds := ⟨90000, 1000⟩, is_valid_lap := true, is_pit_lap := true,
    is_out_lap := false, is_in_lap := true, clean_air_flag := false,
    compound := none, tyre_age_laps := none }

/-- Witness for the amended C1 at a concrete input. -/
theorem c1_pit_implies_dirty_2025_witness :
    exPitRecord ∈ (transform_lap_data_2025 exPit2025 2025 1 "t" (fun _ => "drv")).1 ∧
    exPitRecord.is_pit_lap = true ∧ exPitRecord.clean_air_flag = false :=
  ⟨by decide, by decide,
    c1_pit_implies_dirty_2025 exPit2025 2025 1 "t" (fun _ => "drv") exPitRecord
      (by decide) (by decide)⟩

/-! ## Claim C5: laps with indeterminate cumulative time -/

theorem cumEntriesMulti_mem :
    ∀ (l : List (Nat × RawLap)) (acc : List (Option Nat × Q)) {i : Nat}
      {r : RawLap} {c : Option Q}, (i, r, c) ∈ cumEntriesMulti l acc →
      (i, r) ∈ l ∧ (c.isSome ↔ r.lapTime.isSome) := by
  intro l
  induction l with
  | nil => intro acc i r c h; simp [cumEntriesMulti] at h
  | cons e rest ih =>
      intro acc i r c h
      obtain ⟨j, s⟩ := e
      simp only [cumEntriesMulti] at h
      split at h
      · rename_i t hlt
        rcases List.mem_cons.mp h with heq | h
        · cases heq
          exact ⟨List.mem_cons_self _ _, by simp [hlt]⟩
        · obtain ⟨h1, h2⟩ := ih _ h
          exact ⟨List.mem_cons_of_mem _ h1, h2⟩
      · rename_i hlt
        rcases List.mem_cons.mp h with heq | h
        · cases heq
          exact ⟨List.mem_cons_self _ _, by simp [hlt]⟩
        · obtain ⟨h1, h2⟩ := ih _ h
          exact ⟨List.mem_cons_of_mem _ h1, h2⟩

theorem markDirtyGaps_mem (thr : Q) :
    ∀ (l : List (Nat × RawLap × Q)) (i : Nat), i ∈ markDirtyGaps thr l →
      ∃ e ∈ l, e.1 = i := by
  intro l
  induction l with
  | nil => intro i h; simp [markDirtyGaps] at h
  | cons a t ih =>
      cases t with
      | nil => intro i h; simp [markDirtyGaps] at h
      | cons b rest =>
          intro i h
          simp only [markDirtyGaps, List.mem_append] at h
          rcases h with h | h
          · split at h
            · simp only [List.mem_singleton] at h
              exact ⟨b, List.mem_cons_of_mem _ (List.mem_cons_self _ _), h.symm⟩
            · simp at h
          · obtain ⟨e, he, hei⟩ := ih i h
            exact ⟨e, List.mem_cons_of_mem _ he, hei⟩

theorem cumRanking_mem {centries : List (Nat × RawLap × Option Q)} {ln : Nat}
    {e : Nat × RawLap × Q} (h : e ∈ cumRanking centries ln) :
    (e.1, e.2.1, some e.2.2) ∈ centries := by
  unfold cumRanking at h
  obtain ⟨e0, he0, heq⟩ := List.mem_filterMap.mp (mem_sortBy.mp h)
  obtain ⟨c, hc, heq2⟩ := Option.map_eq_some'.mp heq
  obtain ⟨j, s, co⟩ := e0
  cases heq2
  have : co = some c := hc
  rw [← this]
  exact (List.mem_filter.mp he0).1

/-- C5 amended: in the multi-season reconstructed (cumulative-time) mode, a
lap whose cumulative race time is indeterminate (its lap duration is missing)
is excluded from the ranking for its lap number, but its `clean_air_flag`
keeps the multi-season default of CLEAN (`true`) — it does not default to
dirty.  (In the 2025 variant the default is dirty, but no lap ever has an
indeterminate cumulative time: a missing duration leaves the stale running
sum in place.) -/
theorem c5_indeterminate_keeps_default (rows : List RawLap) (thr : Q) (i : Nat)
    (r : RawLap) (hr : rows[i]? = some r) (hnone : r.lapTime = none) :
    (fromCumulativeFlags rows thr)[i]? = some true := by
  unfold fromCumulativeFlags
  rw [List.getElem?_map]
  have hlen : i < rows.length := by
    have := List.getElem?_eq_some.mp hr
    simpa using this.fst
  rw [List.getElem?_range (by simpa using hlen)]
  simp only [Option.map_some']
  suffices hnd : i ∉ cumDirtyIdxs (idxFrom 0 rows) thr by simp [hnd]
  intro hdirty
  unfold cumDirtyIdxs at hdirty
  obtain ⟨ln, _, hmark⟩ := List.mem_flatMap.mp hdirty
  obtain ⟨e, herank, hei⟩ := markDirtyGaps_mem thr _ i hmark
  obtain ⟨hmem, hiff⟩ := cumEntriesMulti_mem _ _ (cumRanking_mem herank)
  have hrow : rows[e.1]? = some e.2.1 := mem_idxFrom_zero (mem_sortBy.mp hmem)
  rw [hei, hr] at hrow
  have hre : e.2.1 = r := (Option.some.inj hrow).symm
  have : r.lapTime.isSome := by
    rw [← hre]
    exact hiff.mp (by simp)
  rw [hnone] at this
  cases this

/-- Input of the C5 counterexample and witness: the first row misses its lap
duration; the other two rows are 0.5 s apart. -/
def exMissingTime : List RawLap :=
  [{ driverNumber := some 1, lapNumber := 1, lapTime := none },
   { driverNumber := some 2, lapNumber := 1, lapTime := some ⟨10, 1⟩ },
   { driverNumber := some 3, lapNumber := 1, lapTime := some ⟨21, 2⟩ }]

/-- C5 counterexample: the claim says a lap with indeterminate cumulative
time defaults to DIRTY (`clean_air_flag = false`); in the multi-season
reconstructed mode the lap with the missing duration (row 0) keeps the
default CLEAN flag (`true`), while the ranking of the two determinate rows
still marks row 2 dirty. -/
theorem c5_counterexample :
    (exMissingTime.map RawLap.lapTime)[0]? = some none ∧
    (fromCumulativeFlags exMissingTime CLEAN_AIR_GAP_THRESHOLD)[0]? = some true ∧
    (fromCumulativeFlags exMissingTime CLEAN_AIR_GAP_THRESHOLD)[2]? = some false := by
  refine ⟨by decide, by decide, by decide⟩

/-- Witness for the amended C5 at a concrete input. -/
theorem c5_indeterminate_keeps_default_witness :
    exMissingTime[0]? = some { driverNumber := some 1, lapNumber := 1, lapTime := none } ∧
    (fromCumulativeFlags exMissingTime ⟨2, 1⟩)[0]? = some true :=
  ⟨by decide,
    c5_indeterminate_keeps_default exMissingTime ⟨2, 1⟩ 0
      { driverNumber := some 1, lapNumber := 1, lapTime := none }
      (by decide) (by decide)⟩

/-! ## Claim C6: direct-gap mode selection and behavior -/

theorem idxFrom_zero_mem {l : List α} {i : Nat} {a : α} (h : l[i]? = some a) :
    (i, a) ∈ idxFrom 0 l := by
  have h2 : (idxFrom 0 l)[i]? = some (0 + i, a) := by
    rw [idxFrom_getElem?, h]
    rfl
  simpa using List.getElem?_mem h2

/-- Membership in the direct-gap dirty set, for the row at a frame index:
the index is cleared iff the frame has a Position column and the row's
dirty test over its lap group succeeds. -/
theorem mem_gapDirtyIdxs_iff (rows : List RawLap) (hasPos : Bool) (thr : Q)
    (i : Nat) (r : RawLap) (hr : rows[i]? = some r) :
    i ∈ gapDirtyIdxs (idxFrom 0 rows) hasPos thr ↔
      hasPos = true ∧
        gapDirty (lapGroup (idxFrom 0 rows) r.lapNumber) r thr = true := by
  constructor
  · intro h
    unfold gapDirtyIdxs at h
    split at h
    · rename_i hpos
      obtain ⟨ln, _, hgrp⟩ := List.mem_flatMap.mp h
      obtain ⟨e, hegrp, hei⟩ := List.mem_filterMap.mp hgrp
      have hsplit : gapDirty (lapGroup (idxFrom 0 rows) ln) e.2 thr = true ∧ e.1 = i := by
        by_cases hd : gapDirty (lapGroup (idxFrom 0 rows) ln) e.2 thr = true
        · rw [if_pos hd] at hei
          exact ⟨hd, Option.some.inj hei⟩
        · rw [if_neg hd] at hei
          cases hei
      obtain ⟨hd, hie⟩ := hsplit
      obtain ⟨hee, hln⟩ := List.mem_filter.mp hegrp
      simp only [beq_iff_eq] at hln
      obtain ⟨j, s⟩ := e
      subst hie
      have hrow : rows[j]? = some s := mem_idxFrom_zero hee
      have hr2 : rows[j]? = some r := hr
      rw [hrow] at hr2
      have hsr : s = r := Option.some.inj hr2
      subst hsr
      subst hln
      exact ⟨hpos, hd⟩
    · simp at h
  · rintro ⟨hpos, hd⟩
    unfold gapDirtyIdxs
    rw [if_pos hpos]
    refine List.mem_flatMap.mpr ⟨r.lapNumber, ?_, ?_⟩
    · refine mem_dedupKeys.mpr ?_
      exact List.mem_map.mpr ⟨(i, r), idxFrom_zero_mem hr, rfl⟩
    · refine List.mem_filterMap.mpr ⟨(i, r), ?_, ?_⟩
      · exact List.mem_filter.mpr ⟨idxFrom_zero_mem hr, by simp⟩
      · rw [if_pos hd]

theorem fromGapFlags_getElem (rows : List RawLap) (hasPos : Bool) (thr : Q)
    (i : Nat) (hlen : i < rows.length) :
    (fromGapFlags rows hasPos thr)[i]? =
      some (!(decide (i ∈ gapDirtyIdxs (idxFrom 0 rows) hasPos thr))) := by
  unfold fromGapFlags
  rw [List.getElem?_map, List.getElem?_range (by simpa using hlen)]
  rfl

/-- C6, amended: the multi-season classifier makes a single global mode
choice for the whole frame: direct-gap exactly when the reported gap metric
is present on strictly more than 50 % of all laps (and the frame carries the
column), otherwise the reconstructed cumulative method for every lap.  In
direct-gap mode: the race leader (Position 1) is always left clean; any other
driver whose own gap and whose car-ahead's gap are reported is clean iff
(own gap − gap of the driver one position ahead) ≥ threshold. -/
theorem c6_direct_gap_mode (rows : List RawLap) (hasPos : Bool) (thr : Q) :
    (detect_clean_air_multi rows false hasPos thr = fromCumulativeFlags rows thr) ∧
    (2 * countGap rows > rows.length →
      detect_clean_air_multi rows true hasPos thr = fromGapFlags rows hasPos thr) ∧
    (2 * countGap rows ≤ rows.length →
      detect_clean_air_multi rows true hasPos thr = fromCumulativeFlags rows thr) ∧
    (∀ (i : Nat) (r : RawLap), rows[i]? = some r → r.position = some 1 →
      (fromGapFlags rows hasPos thr)[i]? = some true) ∧
    (∀ (i : Nat) (r : RawLap) (p : Int) (g : Q) (ahead : RawLap) (g2 : Q),
      hasPos = true → rows[i]? = some r →
      r.position = some p → p ≠ 1 → r.gapToLeader = some g →
      carAhead (lapGroup (idxFrom 0 rows) r.lapNumber) (p - 1) = some ahead →
      ahead.gapToLeader = some g2 →
      ((fromGapFlags rows hasPos thr)[i]? = some true ↔ thr ≤ g - g2)) := by
  refine ⟨?_, ?_, ?_, ?_, ?_⟩
  · unfold detect_clean_air_multi usesDirectGap
    simp
  · intro h
    unfold detect_clean_air_multi usesDirectGap
    simp [h]
  · intro h
    unfold detect_clean_air_multi usesDirectGap
    simp [Nat.not_lt.mpr h]
  · intro i r hr hpos1
    have hlen : i < rows.length := by
      have := List.getElem?_eq_some.mp hr
      simpa using this.fst
    rw [fromGapFlags_getElem rows hasPos thr i hlen]
    suffices hnd : i ∉ gapDirtyIdxs (idxFrom 0 rows) hasPos thr by simp [hnd]
    intro hmem
    have hd := ((mem_gapDirtyIdxs_iff rows hasPos thr i r hr).mp hmem).2
    unfold gapDirty at hd
    rw [hpos1] at hd
    simp at hd
  · intro i r p g ahead g2 hpos hr hposn hp1 hg hahead hg2
    have hlen : i < rows.length := by
      have := List.getElem?_eq_some.mp hr
      simpa using this.fst
    rw [fromGapFlags_getElem rows hasPos thr i hlen]
    have hbeq : (p == 1) = false := by
      simp only [beq_eq_false_iff_ne, ne_eq]
      exact hp1
    have hd : gapDirty (lapGroup (idxFrom 0 rows) r.lapNumber) r thr =
        decide (g - g2 < thr) := by
      unfold gapDirty
      simp [hposn, hg, hahead, hg2, hbeq]
    have hiff := mem_gapDirtyIdxs_iff rows hasPos thr i r hr
    constructor
    · intro htrue
      have hnot : ¬(i ∈ gapDirtyIdxs (idxFrom 0 rows) hasPos thr) := by
        intro hmem
        simp [hmem] at htrue
      by_contra hlt
      apply hnot
      refine hiff.mpr ⟨hpos, ?_⟩
      rw [hd]
      simpa using Q.not_le.mp hlt
    · intro hge
      have hnd : ¬(i ∈ gapDirtyIdxs (idxFrom 0 rows) hasPos thr) := by
        intro hmem
        have hdt := (hiff.mp hmem).2
        rw [hd] at hdt
        exact absurd (of_decide_eq_true hdt) (Q.not_lt.mpr hge)
      simp [hnd]

/-- Input of the C6 counterexample: the gap metric is present on exactly one
of the two rows (exactly 50 %). -/
def exHalfGap : List RawLap :=
  [{ driverNumber := some 1, lapNumber := 1, lapTime := some ⟨10, 1⟩,
     gapToLeader := some ⟨0, 1⟩, position := some 1 },
   { driverNumber := some 2, lapNumber := 1, lapTime := some ⟨21, 2⟩,
     gapToLeader := none, position := some 2 }]

/-- C6 counterexample: with the gap metric present on exactly 50 % of laps
the claim selects the direct-gap method, but `detect_clean_air` requires
strictly more than 50 % and falls back to the cumulative method — and the
two methods disagree on this input (the second row is clean under direct-gap
because its gap is unreported, dirty under cumulative because the
reconstructed gap is 0.5 s). -/
theorem c6_counterexample :
    2 * countGap exHalfGap = exHalfGap.length ∧
    detect_clean_air_multi exHalfGap true true CLEAN_AIR_GAP_THRESHOLD =
      fromCumulativeFlags exHalfGap CLEAN_AIR_GAP_THRESHOLD ∧
    detect_clean_air_multi exHalfGap true true CLEAN_AIR_GAP_THRESHOLD ≠
      fromGapFlags exHalfGap true CLEAN_AIR_GAP_THRESHOLD := by
  refine ⟨by decide, by decide, by decide⟩

/-- Input of the C6 witness: both gaps reported (100 % > 50 %), the second
driver 5 s behind the leader. -/
def exFullGap : List RawLap :=
  [{ driverNumber := some 1, lapNumber := 1, lapTime := some ⟨10, 1⟩,
     gapToLeader := some ⟨0, 1⟩, position := some 1 },
   { driverNumber := some 2, lapNumber := 1, lapTime := some ⟨15, 1⟩,
     gapToLeader := some ⟨5, 1⟩, position := some 2 }]

/-- Witness for the amended C6 at a concrete input: the mode is direct-gap,
the leader is clean, and the second driver's clean flag matches the gap
comparison 5 − 0 ≥ 2. -/
theorem c6_direct_gap_mode_witness :
    2 * countGap exFullGap > exFullGap.length ∧
    detect_clean_air_multi exFullGap true true CLEAN_AIR_GAP_THRESHOLD =
      fromGapFlags exFullGap true CLEAN_AIR_GAP_THRESHOLD ∧
    ((fromGapFlags exFullGap true CLEAN_AIR_GAP_THRESHOLD)[1]? = some true ↔
      CLEAN_AIR_GAP_THRESHOLD ≤ (⟨5, 1⟩ : Q) - ⟨0, 1⟩) :=
  ⟨by decide,
    (c6_direct_gap_mode exFullGap true CLEAN_AIR_GAP_THRESHOLD).2.1 (by decide),
    (c6_direct_gap_mode exFullGap true CLEAN_AIR_GAP_THRESHOLD).2.2.2.2 1
      { driverNumber := some 2, lapNumber := 1, lapTime := some ⟨15, 1⟩,
        gapToLeader := some ⟨5, 1⟩, position := some 2 }
      2 ⟨5, 1⟩
      { driverNumber := some 1, lapNumber := 1, lapTime := some ⟨10, 1⟩,
        gapToLeader := some ⟨0, 1⟩, position := some 1 }
      ⟨0, 1⟩ rfl (by decide) (by decide) (by decide) (by decide) (by decide)
      (by decide)⟩

/-! ## Claim C7: conflict update policy -/

/-- C7: when the bulk upsert hits a conflict on
(season, round, track_id, driver_id, lap_number), the stored row becomes the
conflict resolution that overwrites `session_type`, `stint_id`,
`stint_lap_index`, `is_pit_lap`, `is_out_lap`, `is_in_lap` with the incoming
values, while the stored `lap_time_seconds` and `compound` are left
unchanged. -/
theorem c7_conflict_overwrites_derived_fields (db : List NormRow) (rec : NormRow)
    (i : Nat) (old : NormRow) (hold : db[i]? = some old)
    (hkey : sameConflictKey old rec = true) :
    (upsertOne db rec)[i]? = some (resolveConflict old rec) ∧
    (resolveConflict old rec).session_type = rec.session_type ∧
    (resolveConflict old rec).stint_id = rec.stint_id ∧
    (resolveConflict old rec).stint_lap_index = rec.stint_lap_index ∧
    (resolveConflict old rec).is_pit_lap = rec.is_pit_lap ∧
    (resolveConflict old rec).is_out_lap = rec.is_out_lap ∧
    (resolveConflict old rec).is_in_lap = rec.is_in_lap ∧
    (resolveConflict old rec).lap_time_seconds = old.lap_time_seconds ∧
    (resolveConflict old rec).compound = old.compound := by
  refine ⟨?_, rfl, rfl, rfl, rfl, rfl, rfl, rfl, rfl⟩
  unfold upsertOne
  have hany : db.any (fun o => sameConflictKey o rec) = true :=
    List.any_eq_true.mpr ⟨old, List.getElem?_mem hold, hkey⟩
  rw [if_pos hany, List.getElem?_map, hold]
  simp [hkey]

/-- A stored row and an incoming row that collide on the conflict key but
disagree on every mutable and immutable payload field. -/
def exStoredRow : NormRow :=
  { season := 2024, round := 1, track_id := "t", driver_id := "drv",
    session_type := "R", lap_number := 7, stint_id := 1, stint_lap_index := 5,
    lap_time_seconds := ⟨90000, 1000⟩, is_valid_lap := true, is_pit_lap := false,
    is_out_lap := false, is_in_lap := false, clean_air_flag := true,
    compound := some "SOFT", tyre_age_laps := some 5 }

/-- The incoming row of the C7 witness. -/
def exIncomingRow : NormRow :=
  { season := 2024, round := 1, track_id := "t", driver_id := "drv",
    session_type := "S", lap_number := 7, stint_id := 2, stint_lap_index := 1,
    lap_time_seconds := ⟨91000, 1000⟩, is_valid_lap := false, is_pit_lap := true,
    is_out_lap := true, is_in_lap := true, clean_air_flag := false,
    compound := some "HARD", tyre_age_laps := some 1 }

/-- Witness for C7 at a concrete conflicting pair. -/
theorem c7_conflict_overwrites_derived_fields_witness :
    [exStoredRow][0]? = some exStoredRow ∧
    sameConflictKey exStoredRow exIncomingRow = true ∧
    ((upsertOne [exStoredRow] exIncomingRow)[0]? =
        some (resolveConflict exStoredRow exIncomingRow) ∧
      (resolveConflict exStoredRow exIncomingRow).session_type =
        exIncomingRow.session_type ∧
      (resolveConflict exStoredRow exIncomingRow).stint_id = exIncomingRow.stint_id ∧
      (resolveConflict exStoredRow exIncomingRow).stint_lap_index =
        exIncomingRow.stint_lap_index ∧
      (resolveConflict exStoredRow exIncomingRow).is_pit_lap =
        exIncomingRow.is_pit_lap ∧
      (resolveConflict exStoredRow exIncomingRow).is_out_lap =
        exIncomingRow.is_out_lap ∧
      (resolveConflict exStoredRow exIncomingRow).is_in_lap =
        exIncomingRow.is_in_lap ∧
      (resolveConflict exStoredRow exIncomingRow).lap_time_seconds =
        exStoredRow.lap_time_seconds ∧
      (resolveConflict exStoredRow exIncomingRow).compound = exStoredRow.compound) :=
  ⟨by decide, by decide,
    c7_conflict_overwrites_derived_fields [exStoredRow] exIncomingRow 0 exStoredRow
      (by decide) (by decide)⟩

/-! ## Row-count lemmas for the loader -/

/-- Conflict resolution never changes the key fields of the stored row. -/
theorem resolveConflict_key (old incoming : NormRow) :
    (resolveConflict old incoming).season = old.season ∧
    (resolveConflict old incoming).round = old.round := ⟨rfl, rfl⟩

theorem countKey_map (db : List NormRow) (f : NormRow → NormRow)
    (hf : ∀ x, (f x).season = x.season ∧ (f x).round = x.round) (s rn : Nat) :
    countKey (db.map f) s rn = countKey db s rn := by
  induction db with
  | nil => rfl
  | cons x t ih =>
      unfold countKey at ih ⊢
      simp only [List.map_cons, List.filter_cons, (hf x).1, (hf x).2]
      split
      · simp [ih]
      · exact ih

theorem countKey_pos_of_mem {db : List NormRow} {x : NormRow} (hx : x ∈ db)
    {s rn : Nat} (hs : x.season = s) (hr : x.round = rn) : 0 < countKey db s rn := by
  unfold countKey
  have hmem : x ∈ db.filter (fun row => row.season == s && row.round == rn) :=
    List.mem_filter.mpr ⟨hx, by simp [hs, hr]⟩
  exact List.length_pos.mpr (List.ne_nil_of_mem hmem)

theorem countKey_upsertOne_ge (db : List NormRow) (rec : NormRow) (s rn : Nat) :
    countKey db s rn ≤ countKey (upsertOne db rec) s rn := by
  unfold upsertOne
  split
  · rw [countKey_map]
    intro x
    split
    · exact resolveConflict_key _ _
    · exact ⟨rfl, rfl⟩
  · unfold countKey
    rw [List.filter_append]
    simp

theorem countKey_upsertOne_pos (db : List NormRow) (rec : NormRow) {s rn : Nat}
    (hs : rec.season = s) (hr : rec.round = rn) :
    0 < countKey (upsertOne db rec) s rn := by
  unfold upsertOne
  split
  · rename_i hany
    obtain ⟨old, hold, hkey⟩ := List.any_eq_true.mp hany
    simp only [sameConflictKey, Bool.and_eq_true, beq_iff_eq] at hkey
    rw [countKey_map]
    · exact countKey_pos_of_mem hold (hkey.1.1.1.1.trans hs) (hkey.1.1.1.2.trans hr)
    · intro x
      split
      · exact resolveConflict_key _ _
      · exact ⟨rfl, rfl⟩
  · exact countKey_pos_of_mem (List.mem_append_right db (List.mem_singleton.mpr rfl)) hs hr

theorem bulkUpsertGo_ok_countKey_ge (failAt : Option Nat) (s rn : Nat) :
    ∀ (recs : List NormRow) (db : List NormRow) (k : Nat) (dbf : List NormRow),
      bulkUpsertGo failAt db recs k = .ok dbf →
      countKey db s rn ≤ countKey dbf s rn := by
  intro recs
  induction recs with
  | nil =>
      intro db k dbf h
      cases h
      exact le_rfl
  | cons rec rest ih =>
      intro db k dbf h
      unfold bulkUpsertGo at h
      split at h
      · cases h
      · exact le_trans (countKey_upsertOne_ge db rec s rn) (ih _ _ _ h)

/-- A successful whole-batch upsert of at least one record keyed (s, rn)
leaves a positive row count for that key. -/
theorem bulkUpsert_ok_countKey_pos {db dbf : List NormRow} {rec0 : NormRow}
    {rest : List NormRow} {failAt : Option Nat} {s rn : Nat}
    (h : bulkUpsert db (rec0 :: rest) failAt = .ok dbf)
    (hs : rec0.season = s) (hr : rec0.round = rn) : 0 < countKey dbf s rn := by
  unfold bulkUpsert bulkUpsertGo at h
  split at h
  · cases h
  · exact lt_of_lt_of_le (countKey_upsertOne_pos db rec0 hs hr)
      (bulkUpsertGo_ok_countKey_ge failAt s rn rest _ 1 dbf h)

/-- Every record built by the multi-season transform carries the season and
round it was invoked with. -/
theorem transform_lap_data_key (rows : List RawLap) (s rn : Nat) (track : String)
    (resolve : Option Nat → String) (hasGap hasPos : Bool) :
    ∀ rec ∈ (transform_lap_data rows s rn track resolve hasGap hasPos).1,
      rec.season = s ∧ rec.round = rn := by
  intro rec hrec
  simp only [transform_lap_data] at hrec
  obtain ⟨p, _, t, _, hrec_eq⟩ := buildRecords_mem _ _ rec hrec
  subst hrec_eq
  exact ⟨rfl, rfl⟩

/-! ## Claim C2: the idempotency gate -/

theorem load_race_data_of_loaded (db : List NormRow) (s rn : Nat) (laps : List RawLap)
    (track : String) (resolve : Option Nat → String) (hasGap hasPos : Bool)
    (failAt : Option Nat) (h : 0 < countKey db s rn) :
    load_race_data db s rn laps track resolve hasGap hasPos failAt =
      (db, { status := .skipped, laps_inserted := 0 }) := by
  have hc : check_race_already_loaded db s rn = true := by
    unfold check_race_already_loaded
    exact decide_eq_true h
  unfold load_race_data
  rw [if_pos hc]

theorem load_race_data_success_pos (db : List NormRow) (s rn : Nat)
    (laps : List RawLap) (track : String) (resolve : Option Nat → String)
    (hasGap hasPos : Bool) (failAt : Option Nat)
    (h : (load_race_data db s rn laps track resolve hasGap hasPos failAt).2.status =
      .success) :
    0 < countKey (load_race_data db s rn laps track resolve hasGap hasPos failAt).1
      s rn := by
  unfold load_race_data at h ⊢
  by_cases hc : check_race_already_loaded db s rn = true
  · rw [if_pos hc] at h
    simp at h
  · rw [if_neg hc] at h ⊢
    by_cases hl : laps.isEmpty = true
    · rw [if_pos hl] at h
      simp at h
    · rw [if_neg hl] at h ⊢
      by_cases hre :
          ((transform_lap_data laps s rn track resolve hasGap hasPos).1).isEmpty = true
      · simp only [hre, if_true] at h
        simp at h
      · simp only [hre, Bool.false_eq_true, if_false] at h ⊢
        cases hbu : bulkUpsert db
            (transform_lap_data laps s rn track resolve hasGap hasPos).1 failAt with
        | error e =>
            rw [hbu] at h
            simp at h
        | ok db2 =>
            show 0 < countKey db2 s rn
            cases hrecs : (transform_lap_data laps s rn track resolve hasGap hasPos).1 with
            | nil =>
                rw [hrecs] at hre
                simp at hre
            | cons rec0 rest =>
                rw [hrecs] at hbu
                have hkey := transform_lap_data_key laps s rn track resolve hasGap hasPos
                  rec0 (by rw [hrecs]; exact List.mem_cons_self _ _)
                exact bulkUpsert_ok_countKey_pos hbu hkey.1 hkey.2

/-- C2: if the store already holds at least one row for (season, round)
before any write, the loader performs no write and reports Skipped; hence a
second run after a successful first run is a Skipped no-op and leaves the
store (and so its row count) unchanged. -/
theorem c2_idempotency_gate (db : List NormRow) (s rn : Nat) (laps : List RawLap)
    (track : String) (resolve : Option Nat → String) (hasGap hasPos : Bool)
    (failAt : Option Nat) :
    (0 < countKey db s rn →
      load_race_data db s rn laps track resolve hasGap hasPos failAt =
        (db, { status := .skipped, laps_inserted := 0 })) ∧
    (∀ (laps2 : List RawLap) (track2 : String) (resolve2 : Option Nat → String)
        (hasGap2 hasPos2 : Bool) (failAt2 : Option Nat),
      (load_race_data db s rn laps track resolve hasGap hasPos failAt).2.status =
        .success →
      load_race_data (load_race_data db s rn laps track resolve hasGap hasPos failAt).1
          s rn laps2 track2 resolve2 hasGap2 hasPos2 failAt2 =
        ((load_race_data db s rn laps track resolve hasGap hasPos failAt).1,
          { status := .skipped, laps_inserted := 0 })) := by
  constructor
  · intro h
    exact load_race_data_of_loaded db s rn laps track resolve hasGap hasPos failAt h
  · intro laps2 track2 resolve2 hasGap2 hasPos2 failAt2 hsucc
    exact load_race_data_of_loaded _ s rn laps2 track2 resolve2 hasGap2 hasPos2 failAt2
      (load_race_data_success_pos db s rn laps track resolve hasGap hasPos failAt hsucc)

/-- Witness for C2: a first run from an empty store succeeds; the identical
second run is Skipped and leaves the store unchanged. -/
theorem c2_idempotency_gate_witness :
    (load_race_data [] 2024 1 exPitLap "t" (fun _ => "drv") true true none).2.status =
      .success ∧
    load_race_data
        (load_race_data [] 2024 1 exPitLap "t" (fun _ => "drv") true true none).1
        2024 1 exPitLap "t" (fun _ => "drv") true true none =
      ((load_race_data [] 2024 1 exPitLap "t" (fun _ => "drv") true true none).1,
        { status := .skipped, laps_inserted := 0 }) :=
  ⟨by decide,
    (c2_idempotency_gate [] 2024 1 exPitLap "t" (fun _ => "drv") true true none).2
      exPitLap "t" (fun _ => "drv") true true none (by decide)⟩

/-! ## Claim C3: transaction rollback atomicity -/

/-- C3: in both variants, if the bulk upsert inside the transaction raises,
the transaction is rolled back: the store is returned exactly as it was
(zero rows persist for the race being loaded, and the rows of every other
(season, round) — in particular a previously committed race — are
unchanged), and the race's status is Failed. -/
theorem c3_rollback_on_insert_failure (db : List NormRow) (s rn : Nat)
    (laps : List RawLap) (track : String) (resolve : Option Nat → String)
    (hasGap hasPos : Bool) (failAt : Option Nat) :
    (check_race_already_loaded db s rn = false →
      laps.isEmpty = false →
      ((transform_lap_data laps s rn track resolve hasGap hasPos).1).isEmpty = false →
      bulkUpsert db (transform_lap_data laps s rn track resolve hasGap hasPos).1
          failAt = .error () →
      load_race_data db s rn laps track resolve hasGap hasPos failAt =
          (db, { status := .failed, laps_inserted := 0 }) ∧
        countKey (load_race_data db s rn laps track resolve hasGap hasPos failAt).1
            s rn = countKey db s rn ∧
        (∀ s2 rn2 : Nat,
          countKey (load_race_data db s rn laps track resolve hasGap hasPos failAt).1
            s2 rn2 = countKey db s2 rn2)) ∧
    (check_race_already_loaded db s rn = false →
      laps.isEmpty = false →
      ((transform_lap_data_2025 laps s rn track resolve).1).isEmpty = false →
      bulkUpsert db (transform_lap_data_2025 laps s rn track resolve).1
          failAt = .error () →
      load_race_data_2025 db s rn laps track resolve failAt =
          (db, { status := .failed, laps_inserted := 0 }) ∧
        countKey (load_race_data_2025 db s rn laps track resolve failAt).1 s rn =
          countKey db s rn ∧
        (∀ s2 rn2 : Nat,
          countKey (load_race_data_2025 db s rn laps track resolve failAt).1 s2 rn2 =
            countKey db s2 rn2)) := by
  constructor
  · intro hcheck hlaps hrecs herr
    have hload : load_race_data db s rn laps track resolve hasGap hasPos failAt =
        (db, { status := .failed, laps_inserted := 0 }) := by
      unfold load_race_data
      rw [if_neg (by simp [hcheck]), if_neg (by simp [hlaps]),
        if_neg (by simp [hrecs]), herr]
    refine ⟨hload, ?_, ?_⟩
    · rw [hload]
    · intro s2 rn2
      rw [hload]
  · intro hcheck hlaps hrecs herr
    have hload : load_race_data_2025 db s rn laps track resolve failAt =
        (db, { status := .failed, laps_inserted := 0 }) := by
      unfold load_race_data_2025
      rw [if_neg (by simp [hcheck]), if_neg (by simp [hlaps]),
        if_neg (by simp [hrecs]), herr]
    refine ⟨hload, ?_, ?_⟩
    · rw [hload]
    · intro s2 rn2
      rw [hload]

/-- Witness for C3: a store holding one committed race (2024 round 1); the
load of 2025 round 3 fails on its first inserted row, the store is returned
unchanged, the failing race has zero rows, and the committed race still has
its one row. -/
theorem c3_rollback_on_insert_failure_witness :
    check_race_already_loaded [exStoredRow] 2025 3 = false ∧
    (load_race_data [exStoredRow] 2025 3 exPitLap "t" (fun _ => "drv") true true
        (some 0) =
        ([exStoredRow], { status := .failed, laps_inserted := 0 }) ∧
      countKey (load_race_data [exStoredRow] 2025 3 exPitLap "t" (fun _ => "drv")
          true true (some 0)).1 2025 3 = countKey [exStoredRow] 2025 3 ∧
      (∀ s2 rn2 : Nat,
        countKey (load_race_data [exStoredRow] 2025 3 exPitLap "t" (fun _ => "drv")
          true true (some 0)).1 s2 rn2 = countKey [exStoredRow] s2 rn2)) :=
  ⟨by decide,
    (c3_rollback_on_insert_failure [exStoredRow] 2025 3 exPitLap "t" (fun _ => "drv")
        true true (some 0)).1
      (by decide) (by decide) (by decide) (by rfl)⟩

/-! ## Partition lemma: the per-key mask writes cover the frame exactly once

`detect_stints_and_pit_laps` iterates `laps_df['DriverNumber'].unique()` and
masks the frame per key; the concatenation of the per-key groups is a
permutation of the frame. -/

theorem dedupKeysGo_eq_dedupKeys [DecidableEq K] :
    ∀ (fuel : Nat) (l : List K), l.length ≤ fuel → dedupKeysGo fuel l = dedupKeys l := by
  intro fuel
  induction fuel using Nat.strong_induction_on with
  | _ fuel ih =>
      intro l hl
      cases fuel with
      | zero =>
          cases l with
          | nil => rfl
          | cons k t => simp at hl
      | succ m =>
          cases l with
          | nil => rfl
          | cons k t =>
              have ht : t.length ≤ m := by simpa using hl
              have hfilt : (t.filter (fun x => x ≠ k)).length ≤ m :=
                le_trans (List.length_filter_le _ _) ht
              show k :: dedupKeysGo m (t.filter (fun x => x ≠ k)) = dedupKeys (k :: t)
              have hR : dedupKeys (k :: t) =
                  k :: dedupKeysGo t.length (t.filter (fun x => x ≠ k)) := rfl
              rw [hR, ih m (Nat.lt_succ_self m) _ hfilt,
                ih t.length (Nat.lt_succ_of_le ht) _ (List.length_filter_le _ _)]

theorem dedupKeys_cons [DecidableEq K] (k : K) (t : List K) :
    dedupKeys (k :: t) = k :: dedupKeys (t.filter (fun x => x ≠ k)) := by
  have hR : dedupKeys (k :: t) =
      k :: dedupKeysGo t.length (t.filter (fun x => x ≠ k)) := rfl
  rw [hR, dedupKeysGo_eq_dedupKeys t.length _ (List.length_filter_le _ _)]

theorem flatMap_congr_mem {ks : List K} {f g : K → List α}
    (h : ∀ k ∈ ks, f k = g k) : ks.flatMap f = ks.flatMap g := by
  induction ks with
  | nil => rfl
  | cons k t ih =>
      simp only [List.flatMap_cons]
      rw [h k (List.mem_cons_self _ _), ih (fun x hx => h x (List.mem_cons_of_mem _ hx))]

theorem map_key_filter_ne [DecidableEq K] (key : α → K) (k : K) (l : List α) :
    (l.filter (fun x => key x ≠ k)).map key = (l.map key).filter (fun x => x ≠ k) := by
  induction l with
  | nil => rfl
  | cons a t ih =>
      simp only [ne_eq, decide_not] at ih ⊢
      simp only [List.filter_cons, List.map_cons]
      by_cases h : key a = k
      · simp [h, ih]
      · simp [h, ih]

/-- The group gathering of the per-key mask writes is a permutation of the
frame. -/
theorem gatherBy_perm [DecidableEq K] (key : α → K) (l : List α) :
    List.Perm ((dedupKeys (l.map key)).flatMap
      (fun k => l.filter (fun x => key x == k))) l := by
  have H : ∀ (n : Nat) (l : List α), l.length ≤ n →
      List.Perm ((dedupKeys (l.map key)).flatMap
        (fun k => l.filter (fun x => key x == k))) l := by
    intro n
    induction n with
    | zero =>
        intro l hl
        cases l with
        | nil => simp [dedupKeys, dedupKeysGo]
        | cons a t => simp at hl
    | succ n ih =>
        intro l hl
        cases l with
        | nil => simp [dedupKeys, dedupKeysGo]
        | cons a t =>
            rw [List.map_cons, dedupKeys_cons, List.flatMap_cons]
            rw [show (List.map key t).filter (fun x => x ≠ key a) =
              (t.filter (fun x => key x ≠ key a)).map key from
              (map_key_filter_ne key (key a) t).symm]
            have hgrp1 : (a :: t).filter (fun x => key x == key a) =
                a :: t.filter (fun x => key x == key a) := by
              simp [List.filter_cons]
            have hrest : ((dedupKeys ((t.filter (fun x => key x ≠ key a)).map key)).flatMap
                  (fun k => (a :: t).filter (fun x => key x == k))) =
                ((dedupKeys ((t.filter (fun x => key x ≠ key a)).map key)).flatMap
                  (fun k => (t.filter (fun x => key x ≠ key a)).filter
                    (fun x => key x == k))) := by
              apply flatMap_congr_mem
              intro k hk
              have hkne : k ≠ key a := by
                obtain ⟨x, hx, hxk⟩ := List.mem_map.mp (mem_dedupKeys.mp hk)
                have hxne : key x ≠ key a := by
                  have := (List.mem_filter.mp hx).2
                  simpa using this
                rw [← hxk]
                exact hxne
              have hbeq : (key a == k) = false := by
                simp only [beq_eq_false_iff_ne, ne_eq]
                exact fun h => hkne h.symm
              rw [show (a :: t).filter (fun x => key x == k) =
                t.filter (fun x => key x == k) by simp [List.filter_cons, hbeq]]
              rw [List.filter_filter]
              apply List.filter_congr
              intro x _
              by_cases hx : key x = k
              · simp only [hx]
                show (k == k) = ((k == k) && decide (¬k = key a))
                have h1 : (k == k) = true := beq_self_eq_true k
                have h2 : decide (¬k = key a) = true := decide_eq_true hkne
                rw [h1, h2]
                rfl
              · simp [hx]
            rw [hrest, hgrp1, List.cons_append]
            refine List.Perm.cons a ?_
            have hlen : (t.filter (fun x => key x ≠ key a)).length ≤ n :=
              le_trans (List.length_filter_le _ _) (by simpa using hl)
            have hperm2 := ih (t.filter (fun x => key x ≠ key a)) hlen
            refine (List.Perm.append_left _ hperm2).trans ?_
            refine List.Perm.trans ?_
              (List.filter_append_perm (fun x => key x == key a) t)
            apply List.Perm.append_left
            apply List.Perm.of_eq
            apply List.filter_congr
            intro x _
            by_cases hx : key x = key a
            · simp [hx]
            · simp [hx]
  exact H l.length l le_rfl

/-! ## Claim C8: fail-closed filtering -/

/-- The stint-annotated frame (for any new-stint condition) is row-for-row a
permutation of its input: every row is annotated exactly once. -/
theorem stintGather_fst_perm (boundary : StintState → RawLap → Bool)
    (rows : List RawLap) :
    List.Perm (((dedupKeys ((sortBy driverLapLe rows).map RawLap.driverNumber)).flatMap
      (fun d =>
        ((sortBy driverLapLe rows).filter (fun r => r.driverNumber == d)).zip
          (stintScan boundary initStintState
            ((sortBy driverLapLe rows).filter (fun r => r.driverNumber == d))))).map
      Prod.fst) rows := by
  rw [List.map_flatMap]
  have heq : ∀ d ∈ dedupKeys ((sortBy driverLapLe rows).map RawLap.driverNumber),
      (((sortBy driverLapLe rows).filter (fun r => r.driverNumber == d)).zip
        (stintScan boundary initStintState
          ((sortBy driverLapLe rows).filter (fun r => r.driverNumber == d)))).map
        Prod.fst =
      (sortBy driverLapLe rows).filter (fun r => r.driverNumber == d) := by
    intro d _
    apply List.map_fst_zip
    rw [stintScan_length]
  rw [flatMap_congr_mem heq]
  refine List.Perm.trans (List.Perm.of_eq (flatMap_congr_mem ?_))
    ((gatherBy_perm RawLap.driverNumber (sortBy driverLapLe rows)).trans
      (sortBy_perm driverLapLe rows))
  intro d _
  apply List.filter_congr
  intro x _
  by_cases h : x.driverNumber = d
  · simp [h]
  · simp [h]

theorem detect_stints_and_pit_laps_fst_perm (rows : List RawLap) :
    List.Perm ((detect_stints_and_pit_laps rows).map Prod.fst) rows :=
  stintGather_fst_perm boundaryMulti rows

theorem detect_stints_2025_fst_perm (rows : List RawLap) :
    List.Perm ((detect_stints_2025 rows).map Prod.fst) rows :=
  stintGather_fst_perm boundary2025 rows

theorem detect_clean_air_multi_length (rows : List RawLap) (hasGap hasPos : Bool)
    (thr : Q) : (detect_clean_air_multi rows hasGap hasPos thr).length = rows.length := by
  unfold detect_clean_air_multi fromGapFlags fromCumulativeFlags
  split <;> simp

theorem buildRecords_length_of_some (mk : RawLap → Q → LapAnnot → Bool → NormRow)
    (pairs : List ((RawLap × LapAnnot) × Bool))
    (h : ∀ p ∈ pairs, p.1.1.lapTime.isSome = true) :
    (buildRecords mk pairs).1.length = pairs.length := by
  induction pairs with
  | nil => rfl
  | cons p rest ih =>
      obtain ⟨⟨r, ann⟩, flag⟩ := p
      obtain ⟨t, ht⟩ := Option.isSome_iff_exists.mp (h _ (List.mem_cons_self _ _))
      have ht2 : r.lapTime = some t := ht
      simp only [buildRecords, ht2, List.length_cons]
      rw [ih (fun p hp => h p (List.mem_cons_of_mem _ hp))]

theorem transform_lap_data_length (rows : List RawLap) (s rn : Nat) (track : String)
    (resolve : Option Nat → String) (hasGap hasPos : Bool) :
    (transform_lap_data rows s rn track resolve hasGap hasPos).1.length =
      (rows.filter (fun r => r.lapTime.isSome && r.driverNumber.isSome)).length := by
  unfold transform_lap_data
  have hann := detect_stints_and_pit_laps_fst_perm
    (rows.filter (fun r => r.lapTime.isSome && r.driverNumber.isSome))
  have hannlen : (detect_stints_and_pit_laps
      (rows.filter (fun r => r.lapTime.isSome && r.driverNumber.isSome))).length =
      (rows.filter (fun r => r.lapTime.isSome && r.driverNumber.isSome)).length := by
    have := hann.length_eq
    simpa using this
  rw [buildRecords_length_of_some]
  · rw [List.length_zip, detect_clean_air_multi_length, List.length_map, hannlen]
    simp
  · intro p hp
    obtain ⟨i, h1, _⟩ := mem_zip_getElem hp
    have hp1 : p.1 ∈ detect_stints_and_pit_laps
        (rows.filter (fun r => r.lapTime.isSome && r.driverNumber.isSome)) :=
      List.getElem?_mem h1
    have hfst : p.1.1 ∈ rows.filter (fun r => r.lapTime.isSome && r.driverNumber.isSome) :=
      hann.mem_iff.mp (List.mem_map_of_mem Prod.fst hp1)
    have := (List.mem_filter.mp hfst).2
    exact (Bool.and_eq_true _ _ |>.mp this).1

/-- C8: the multi-season transform drops exactly the laps missing a lap
duration or a driver identity, before stint detection and classification;
the logged skip count is the number of dropped laps.  In particular an input
with exactly one lap missing its duration (and all driver ids present)
produces input−1 records and a logged skip count of 1. -/
theorem c8_fail_closed_filtering (rows : List RawLap) (s rn : Nat) (track : String)
    (resolve : Option Nat → String) (hasGap hasPos : Bool) :
    ((transform_lap_data rows s rn track resolve hasGap hasPos).1.length =
      (rows.filter (fun r => r.lapTime.isSome && r.driverNumber.isSome)).length) ∧
    ((transform_lap_data rows s rn track resolve hasGap hasPos).2.1 =
      rows.length -
        (rows.filter (fun r => r.lapTime.isSome && r.driverNumber.isSome)).length) ∧
    ((rows.countP (fun r => r.lapTime.isNone) = 1 ∧
        (∀ r ∈ rows, r.driverNumber.isSome = true)) →
      (transform_lap_data rows s rn track resolve hasGap hasPos).1.length =
          rows.length - 1 ∧
        (transform_lap_data rows s rn track resolve hasGap hasPos).2.1 = 1) := by
  refine ⟨transform_lap_data_length rows s rn track resolve hasGap hasPos, rfl, ?_⟩
  rintro ⟨hcount, hdrv⟩
  have hfe : rows.filter (fun r => r.lapTime.isSome && r.driverNumber.isSome) =
      rows.filter (fun r => r.lapTime.isSome) := by
    apply List.filter_congr
    intro r hr
    rw [hdrv r hr, Bool.and_true]
  have hkey : ∀ (l : List RawLap),
      (l.filter (fun r => r.lapTime.isSome)).length +
        l.countP (fun r => r.lapTime.isNone) = l.length := by
    intro l
    induction l with
    | nil => rfl
    | cons r t ih =>
        cases hlt : r.lapTime with
        | some v =>
            simp [List.filter_cons, List.countP_cons, hlt]
            omega
        | none =>
            simp [List.filter_cons, List.countP_cons, hlt]
            omega
  have hlenf : (rows.filter (fun r => r.lapTime.isSome)).length = rows.length - 1 := by
    have := hkey rows
    omega
  constructor
  · rw [transform_lap_data_length, hfe, hlenf]
  · show rows.length -
        (rows.filter (fun r => r.lapTime.isSome && r.driverNumber.isSome)).length = 1
    rw [hfe, hlenf]
    have hpos : 0 < rows.length := by
      by_contra hz
      have : rows = [] := List.length_eq_zero.mp (by omega)
      rw [this] at hcount
      simp at hcount
    omega

/-- Input of the C8 witness: three laps, exactly one missing its duration. -/
def exOneMissing : List RawLap :=
  [{ driverNumber := some 1, lapNumber := 1, lapTime := some ⟨90, 1⟩ },
   { driverNumber := some 1, lapNumber := 2, lapTime := none },
   { driverNumber := some 2, lapNumber := 1, lapTime := some ⟨80, 1⟩ }]

/-- Witness for C8: three laps in, one missing its duration, two records out,
skip count 1. -/
theorem c8_fail_closed_filtering_witness :
    (exOneMissing.countP (fun r => r.lapTime.isNone) = 1 ∧
      (∀ r ∈ exOneMissing, r.driverNumber.isSome = true)) ∧
    ((transform_lap_data exOneMissing 2024 1 "t" (fun _ => "drv") true true).1.length =
        exOneMissing.length - 1 ∧
      (transform_lap_data exOneMissing 2024 1 "t" (fun _ => "drv") true true).2.1 = 1) :=
  ⟨⟨by decide, by decide⟩,
    (c8_fail_closed_filtering exOneMissing 2024 1 "t" (fun _ => "drv") true true).2.2
      ⟨by decide, by decide⟩⟩

/-! ## Claim C9: the execution fingerprint -/

theorem digitChar_inj {a b : Nat} (ha : a < 10) (hb : b < 10)
    (h : digitChar a = digitChar b) : a = b := by
  interval_cases a <;> interval_cases b <;> simp_all [digitChar]

theorem digitChar_ne_colon {d : Nat} (h : d < 10) : digitChar d ≠ Char.ofNat 58 := by
  interval_cases d <;> decide

theorem natStrCharsGo_small {n : Nat} (hn : n < 10) (fuel : Nat) :
    natStrCharsGo fuel n = [digitChar n] := by
  cases fuel with
  | zero => rfl
  | succ m => simp [natStrCharsGo, hn]

theorem natStrCharsGo_fuel :
    ∀ (n f1 f2 : Nat), n ≤ f1 → n ≤ f2 → natStrCharsGo f1 n = natStrCharsGo f2 n := by
  intro n
  induction n using Nat.strong_induction_on with
  | _ n ih =>
      intro f1 f2 h1 h2
      by_cases hn : n < 10
      · rw [natStrCharsGo_small hn, natStrCharsGo_small hn]
      · have hn10 : 10 ≤ n := Nat.le_of_not_lt hn
        obtain ⟨m1, rfl⟩ : ∃ m, f1 = m + 1 :=
          ⟨f1 - 1, by omega⟩
        obtain ⟨m2, rfl⟩ : ∃ m, f2 = m + 1 :=
          ⟨f2 - 1, by omega⟩
        show (if n < 10 then [digitChar n]
            else natStrCharsGo m1 (n / 10) ++ [digitChar (n % 10)]) =
          (if n < 10 then [digitChar n]
            else natStrCharsGo m2 (n / 10) ++ [digitChar (n % 10)])
        rw [if_neg hn, if_neg hn]
        have hdiv : n / 10 < n := Nat.div_lt_self (by omega) (by omega)
        have hd1 : n / 10 ≤ m1 := by
          have : n / 10 ≤ n - 1 := by omega
          omega
        have hd2 : n / 10 ≤ m2 := by omega
        rw [ih (n / 10) hdiv m1 m2 hd1 hd2]

theorem natStrChars_ne_nil (n : Nat) : natStrChars n ≠ [] := by
  unfold natStrChars
  by_cases hn : n < 10
  · rw [natStrCharsGo_small hn]
    simp
  · obtain ⟨m, hm⟩ : ∃ m, n = m + 1 := ⟨n - 1, by omega⟩
    rw [hm]
    show (if m + 1 < 10 then [digitChar (m + 1)]
        else natStrCharsGo m ((m + 1) / 10) ++ [digitChar ((m + 1) % 10)]) ≠ []
    rw [if_neg (by omega)]
    simp

theorem natStrCharsGo_digits :
    ∀ (fuel n : Nat), n ≤ fuel →
      ∀ c ∈ natStrCharsGo fuel n, ∃ d, d < 10 ∧ c = digitChar d := by
  intro fuel
  induction fuel with
  | zero =>
      intro n hn c hc
      have : n = 0 := by omega
      subst this
      simp only [natStrCharsGo, List.mem_singleton] at hc
      exact ⟨0, by omega, hc⟩
  | succ m ih =>
      intro n hn c hc
      by_cases h10 : n < 10
      · rw [natStrCharsGo_small h10] at hc
        simp only [List.mem_singleton] at hc
        exact ⟨n, h10, hc⟩
      · have hrec : natStrCharsGo (m + 1) n =
            natStrCharsGo m (n / 10) ++ [digitChar (n % 10)] := by
          show (if n < 10 then [digitChar n]
              else natStrCharsGo m (n / 10) ++ [digitChar (n % 10)]) = _
          rw [if_neg h10]
        rw [hrec] at hc
        rcases List.mem_append.mp hc with hc | hc
        · have hd : n / 10 ≤ m := by
            have : n / 10 ≤ n - 1 := by omega
            omega
          exact ih (n / 10) hd c hc
        · simp only [List.mem_singleton] at hc
          exact ⟨n % 10, Nat.mod_lt _ (by omega), hc⟩

theorem natStrChars_no_colon (n : Nat) :
    ∀ c ∈ natStrChars n, c ≠ Char.ofNat 58 := by
  intro c hc
  obtain ⟨d, hd, rfl⟩ := natStrCharsGo_digits n n le_rfl c hc
  exact digitChar_ne_colon hd

theorem natStrChars_inj : ∀ (m n : Nat), natStrChars m = natStrChars n → m = n := by
  intro m
  induction m using Nat.strong_induction_on with
  | _ m ih =>
      intro n h
      unfold natStrChars at h
      by_cases hm : m < 10
      · rw [natStrCharsGo_small hm] at h
        by_cases hn : n < 10
        · rw [natStrCharsGo_small hn] at h
          exact digitChar_inj hm hn (List.singleton_inj.mp h)
        · exfalso
          obtain ⟨k, rfl⟩ : ∃ k, n = k + 1 := ⟨n - 1, by omega⟩
          have hrec : natStrCharsGo (k + 1) (k + 1) =
              natStrCharsGo k ((k + 1) / 10) ++ [digitChar ((k + 1) % 10)] := by
            show (if k + 1 < 10 then [digitChar (k + 1)]
                else natStrCharsGo k ((k + 1) / 10) ++ [digitChar ((k + 1) % 10)]) = _
            rw [if_neg hn]
          rw [hrec] at h
          have hlen := congrArg List.length h
          simp only [List.length_singleton, List.length_append] at hlen
          have := natStrChars_ne_nil ((k + 1) / 10)
          unfold natStrChars at this
          have hd : (k + 1) / 10 ≤ k := by
            have h1 : (k + 1) / 10 < k + 1 := Nat.div_lt_self (by omega) (by omega)
            omega
          rw [natStrCharsGo_fuel ((k + 1) / 10) k ((k + 1) / 10) hd le_rfl] at hlen
          have hpos : 0 < (natStrCharsGo ((k + 1) / 10) ((k + 1) / 10)).length :=
            List.length_pos.mpr this
          omega
      · have hm10 : 10 ≤ m := Nat.le_of_not_lt hm
        obtain ⟨j, rfl⟩ : ∃ j, m = j + 1 := ⟨m - 1, by omega⟩
        have hrecm : natStrCharsGo (j + 1) (j + 1) =
            natStrCharsGo j ((j + 1) / 10) ++ [digitChar ((j + 1) % 10)] := by
          show (if j + 1 < 10 then [digitChar (j + 1)]
              else natStrCharsGo j ((j + 1) / 10) ++ [digitChar ((j + 1) % 10)]) = _
          rw [if_neg hm]
        rw [hrecm] at h
        by_cases hn : n < 10
        · exfalso
          rw [natStrCharsGo_small hn] at h
          have hlen := congrArg List.length h
          simp only [List.length_singleton, List.length_append] at hlen
          have hd : (j + 1) / 10 ≤ j := by
            have h1 : (j + 1) / 10 < j + 1 := Nat.div_lt_self (by omega) (by omega)
            omega
          have hne := natStrChars_ne_nil ((j + 1) / 10)
          unfold natStrChars at hne
          rw [natStrCharsGo_fuel ((j + 1) / 10) j ((j + 1) / 10) hd le_rfl] at hlen
          have hpos : 0 < (natStrCharsGo ((j + 1) / 10) ((j + 1) / 10)).length :=
            List.length_pos.mpr hne
          omega
        · obtain ⟨k, rfl⟩ : ∃ k, n = k + 1 := ⟨n - 1, by omega⟩
          have hrecn : natStrCharsGo (k + 1) (k + 1) =
              natStrCharsGo k ((k + 1) / 10) ++ [digitChar ((k + 1) % 10)] := by
            show (if k + 1 < 10 then [digitChar (k + 1)]
                else natStrCharsGo k ((k + 1) / 10) ++ [digitChar ((k + 1) % 10)]) = _
            rw [if_neg hn]
          rw [hrecn] at h
          obtain ⟨hpre, hlast⟩ := List.append_inj' h (by simp)
          have hmod : (j + 1) % 10 = (k + 1) % 10 :=
            digitChar_inj (Nat.mod_lt _ (by omega)) (Nat.mod_lt _ (by omega))
              (List.singleton_inj.mp hlast)
          have hdj : (j + 1) / 10 ≤ j := by
            have h1 : (j + 1) / 10 < j + 1 := Nat.div_lt_self (by omega) (by omega)
            omega
          have hdk : (k + 1) / 10 ≤ k := by
            have h1 : (k + 1) / 10 < k + 1 := Nat.div_lt_self (by omega) (by omega)
            omega
          have hpre2 : natStrChars ((j + 1) / 10) = natStrChars ((k + 1) / 10) := by
            unfold natStrChars
            rw [natStrCharsGo_fuel ((j + 1) / 10) ((j + 1) / 10) j le_rfl hdj,
              natStrCharsGo_fuel ((k + 1) / 10) ((k + 1) / 10) k le_rfl hdk]
            exact hpre
          have hdiv : (j + 1) / 10 = (k + 1) / 10 :=
            ih ((j + 1) / 10) (Nat.div_lt_self (by omega) (by omega)) _ hpre2
          have hj := Nat.div_add_mod (j + 1) 10
          have hk := Nat.div_add_mod (k + 1) 10
          omega

/-- Splitting at the first colon is unambiguous when the left parts are
colon-free. -/
theorem colon_split_inj :
    ∀ {a1 : List Char} {b1 : List Char} {a2 : List Char} {b2 : List Char},
      (∀ c ∈ a1, c ≠ Char.ofNat 58) → (∀ c ∈ a2, c ≠ Char.ofNat 58) →
      a1 ++ Char.ofNat 58 :: b1 = a2 ++ Char.ofNat 58 :: b2 → a1 = a2 ∧ b1 = b2 := by
  intro a1
  induction a1 with
  | nil =>
      intro b1 a2 b2 _ h2 heq
      cases a2 with
      | nil =>
          simp only [List.nil_append, List.cons.injEq] at heq
          exact ⟨rfl, heq.2⟩
      | cons c t =>
          simp only [List.nil_append, List.cons_append, List.cons.injEq] at heq
          exact absurd heq.1.symm (h2 c (List.mem_cons_self _ _))
  | cons c t ih =>
      intro b1 a2 b2 h1 h2 heq
      cases a2 with
      | nil =>
          simp only [List.cons_append, List.nil_append, List.cons.injEq] at heq
          exact absurd heq.1 (h1 c (List.mem_cons_self _ _))
      | cons c2 t2 =>
          simp only [List.cons_append, List.cons.injEq] at heq
          obtain ⟨rfl, heq2⟩ := heq
          obtain ⟨ht, hb⟩ := ih (fun x hx => h1 x (List.mem_cons_of_mem _ hx))
            (fun x hx => h2 x (List.mem_cons_of_mem _ hx)) heq2
          exact ⟨by rw [ht], hb⟩

theorem execution_data_data (s r : Nat) (v : String) :
    (execution_data s r v).data =
      natStrChars s ++ Char.ofNat 58 ::
        (natStrChars r ++ Char.ofNat 58 :: v.data) := by
  show (natStr s ++ ":" ++ natStr r ++ ":" ++ v).data = _
  have happ : ∀ a b : String, (a ++ b).data = a.data ++ b.data := fun _ _ => rfl
  rw [happ, happ, happ, happ]
  have hc : (":" : String).data = [Char.ofNat 58] := by decide
  rw [hc]
  show natStrChars s ++ [Char.ofNat 58] ++ natStrChars r ++ [Char.ofNat 58] ++ v.data = _
  simp [List.append_assoc]

/-- C9, amended: the `ingest-laps.py` fingerprint is the SHA-256 of
`{season}:{round-or-0}:{source-version}` — there is NO subject-kind field
in this variant.  The hashed pre-image determines and is determined by the
three arguments: identical arguments give an identical fingerprint, and
changing any argument changes the hashed pre-image.  The round argument is
the single round when exactly one is processed and 0 otherwise. -/
theorem c9_fingerprint_determinism (sha256 : String → String) :
    (∀ (s r : Nat) (v : String) (s2 r2 : Nat) (v2 : String),
      execution_data s r v = execution_data s2 r2 v2 ↔ s = s2 ∧ r = r2 ∧ v = v2) ∧
    (∀ (s r : Nat) (v : String),
      compute_execution_hash sha256 s r v = sha256 (execution_data s r v)) ∧
    (∀ r : Nat, auditRound [r] = r) ∧
    auditRound [] = 0 ∧
    (∀ (a b : Nat) (t : List Nat), auditRound (a :: b :: t) = 0) := by
  refine ⟨?_, fun _ _ _ => rfl, fun _ => rfl, rfl, fun _ _ _ => rfl⟩
  intro s r v s2 r2 v2
  constructor
  · intro h
    have hd := congrArg String.data h
    rw [execution_data_data, execution_data_data] at hd
    obtain ⟨hs, hrest⟩ := colon_split_inj (natStrChars_no_colon s)
      (natStrChars_no_colon s2) hd
    obtain ⟨hr, hv⟩ := colon_split_inj (natStrChars_no_colon r)
      (natStrChars_no_colon r2) hrest
    exact ⟨natStrChars_inj _ _ hs, natStrChars_inj _ _ hr, String.ext hv⟩
  · rintro ⟨rfl, rfl, rfl⟩
    rfl

/-- C9 counterexample: the fingerprint pre-image of `ingest-laps.py` has
exactly two colon-separated field boundaries (`{season}:{round}:{version}`);
it does not equal the spec's four-field
`{subject-kind}:{season}:{round-or-0}:{source-version}` for ANY choice of
subject-kind string, since that string is strictly longer. -/
theorem c9_counterexample :
    ((execution_data 2024 0 "fastf1-362").data.count (Char.ofNat 58) = 2) ∧
    ∀ kind : String,
      spec_fingerprint_data kind 2024 0 "fastf1-362" ≠
        execution_data 2024 0 "fastf1-362" := by
  refine ⟨by decide, ?_⟩
  intro kind h
  have hlen := congrArg String.length h
  have happ : ∀ a b : String, (a ++ b).length = a.length + b.length :=
    String.length_append
  simp only [spec_fingerprint_data, execution_data, happ] at hlen
  have hc : (":" : String).length = 1 := by decide
  rw [hc] at hlen
  omega

/-! ## Claim C10: lap-validity default -/

/-- C10: `is_valid_lap = not row.get('IsAccurate', True) == False`: a missing
accuracy flag defaults to valid (fail-open); the flag is false only when the
provider explicitly reports the lap inaccurate.  Every record of either
transform derives its validity by this rule from its source row. -/
theorem c10_validity_fail_open (rows : List RawLap) (s rn : Nat) (track : String)
    (resolve : Option Nat → String) (hasGap hasPos : Bool) :
    (isValidLap none = true ∧ isValidLap (some true) = true ∧
      isValidLap (some false) = false) ∧
    (∀ rec ∈ (transform_lap_data rows s rn track resolve hasGap hasPos).1,
      ∃ r ∈ rows, rec.lap_number = r.lapNumber ∧
        rec.is_valid_lap = isValidLap r.isAccurate) ∧
    (∀ rec ∈ (transform_lap_data_2025 rows s rn track resolve).1,
      ∃ r ∈ rows, rec.lap_number = r.lapNumber ∧
        rec.is_valid_lap = isValidLap r.isAccurate) := by
  refine ⟨⟨rfl, rfl, rfl⟩, ?_, ?_⟩
  · intro rec hrec
    simp only [transform_lap_data] at hrec
    obtain ⟨p, hp, t, hlt, hrec_eq⟩ := buildRecords_mem _ _ rec hrec
    obtain ⟨⟨r, a⟩, flag⟩ := p
    subst hrec_eq
    obtain ⟨i, h1, _⟩ := mem_zip_getElem hp
    have hmem : (r, a) ∈ detect_stints_and_pit_laps
        (rows.filter (fun r => r.lapTime.isSome && r.driverNumber.isSome)) :=
      List.getElem?_mem h1
    have hrf : r ∈ rows.filter (fun r => r.lapTime.isSome && r.driverNumber.isSome) :=
      (detect_stints_and_pit_laps_fst_perm _).mem_iff.mp
        (List.mem_map_of_mem Prod.fst hmem)
    exact ⟨r, (List.mem_filter.mp hrf).1, rfl, rfl⟩
  · intro rec hrec
    simp only [transform_lap_data_2025] at hrec
    obtain ⟨p, hp, t, hlt, hrec_eq⟩ := buildRecords_mem _ _ rec hrec
    obtain ⟨⟨r, a⟩, flag⟩ := p
    subst hrec_eq
    obtain ⟨i, h1, _⟩ := mem_zip_getElem hp
    have hmem : (r, a) ∈ detect_stints_2025
        (rows.filter (fun r => r.lapTime.isSome && r.driverNumber.isSome)) :=
      List.getElem?_mem h1
    have hrf : r ∈ rows.filter (fun r => r.lapTime.isSome && r.driverNumber.isSome) :=
      (detect_stints_2025_fst_perm _).mem_iff.mp (List.mem_map_of_mem Prod.fst hmem)
    exact ⟨r, (List.mem_filter.mp hrf).1, rfl, rfl⟩

/-- Witness for C10 at a concrete input: the record of the pit-in lap (whose
accuracy flag is absent) is valid, and its validity traces back to its source
row through the rule. -/
theorem c10_validity_fail_open_witness :
    exPitRecord ∈ (transform_lap_data_2025 exPit2025 2025 1 "t" (fun _ => "drv")).1 ∧
    exPitRecord.is_valid_lap = true ∧
    (∃ r ∈ exPit2025, exPitRecord.lap_number = r.lapNumber ∧
      exPitRecord.is_valid_lap = isValidLap r.isAccurate) :=
  ⟨by decide, by decide,
    (c10_validity_fail_open exPit2025 2025 1 "t" (fun _ => "drv") true true).2.2
      exPitRecord (by decide)⟩

end F1Muse
